import Mathlib

/-! steampipe-plugin-aws: the tables aws_iam_user and aws_ssm_maintenance_window

A shallow embedding of `aws/plugin.go`, `aws/table_aws_iam_user.go` and
`aws/table_aws_ssm_maintenance_window.go`, and theorems about it.

Conventions of the embedding.

* A Go pointer to a scalar or to a struct (`*string`, `*iam.GetUserOutput`) is an
  `Option`; dereferencing `none` is a Go panic. The elements of a slice of struct
  pointers (`[]*iam.Tag`, `[]*iam.User`) are taken as the structs themselves.
* A Go function returning `(value, error)` returns a `GoResult`: `ok value`,
  `error err` (the value is nil), or `panic` when the body dereferences nil.
* A Go `map[string]T` is an association list without repeated keys.
* A cloud API method is a function from its request to the Go pair
  `(output, err)` the SDK hands back; a paginated method is the list of pages the
  API answers with, each with the flag the SDK passes to the page callback.
* The hydrators record the API requests they issue, in issue order.
* The fan-out of `getAwsIamUserInlinePolicies` is given by its result under a
  completion order of the goroutines, and by its events under a scheduler that
  says which goroutines end before the next one is started.
-/

namespace Aws

/-! ## Go values -/

/-- A Go `error`: an `awserr.Error` carries a code, any other error does not. -/
inductive GoError where
  | awsErr (code : String) (message : String)
  | other (message : String)
  deriving DecidableEq, Repr

/-- The code of an error, when it is an `awserr.Error`. -/
def GoError.code? : GoError → Option String
  | .awsErr c _ => some c
  | .other _ => none

/-- Outcome of a Go function of type `(T, error)`. -/
inductive GoResult (α : Type) where
  | ok (value : α)
  | error (err : GoError)
  | panic
  deriving DecidableEq, Repr

/-- The result is a returned error. -/
def GoResult.isError {α : Type} : GoResult α → Bool
  | .error _ => true
  | _ => false

/-- The result is a normal return (with or without error), not a panic. -/
def GoResult.returns {α : Type} : GoResult α → Bool
  | .panic => false
  | _ => true

/-- A value produced by `json.Unmarshal` into an `interface{}`. -/
inductive JsonValue where
  | null
  | bool (b : Bool)
  | number (literal : String)
  | string (s : String)
  | array (items : List JsonValue)
  | object (fields : List (String × JsonValue))

/-- The two standard-library decoders `getUserInlinePolicy` calls:
`url.QueryUnescape` and `json.Unmarshal` (into an `interface{}`). -/
structure Codec where
  QueryUnescape : String → Except GoError String
  Unmarshal : String → Except GoError JsonValue

/-- Assignment `m[k] = v` on a Go map. -/
def mapSet {β : Type} (m : List (String × β)) (k : String) (v : β) : List (String × β) :=
  match m with
  | [] => [(k, v)]
  | (k', v') :: rest => if k' = k then (k, v) :: rest else (k', v') :: mapSet rest k v

/-- Lookup `m[k]` on a Go map. -/
def mapGet {β : Type} (m : List (String × β)) (k : String) : Option β :=
  match m with
  | [] => none
  | (k', v') :: rest => if k' = k then some v' else mapGet rest k

/-- The keys of a Go map. -/
def mapKeys {β : Type} (m : List (String × β)) : List String :=
  m.map Prod.fst

/-! ## The IAM SDK types used by the table -/

/-- The SDK type `iam.Tag`. -/
structure Tag where
  Key : Option String
  Value : Option String
  deriving DecidableEq, Repr

/-- The SDK type `iam.AttachedPermissionsBoundary`. -/
structure AttachedPermissionsBoundary where
  PermissionsBoundaryArn : Option String
  PermissionsBoundaryType : Option String
  deriving DecidableEq, Repr

/-- The SDK type `iam.User`; the two times are kept as opaque instants. -/
structure User where
  UserName : Option String := none
  UserId : Option String := none
  Path : Option String := none
  Arn : Option String := none
  CreateDate : Option Int := none
  PasswordLastUsed : Option Int := none
  PermissionsBoundary : Option AttachedPermissionsBoundary := none
  Tags : Option (List Tag) := none
  deriving DecidableEq, Repr

structure GetUserInput where
  UserName : Option String
  deriving DecidableEq, Repr

structure GetUserOutput where
  User : Option User := none
  deriving DecidableEq, Repr

structure ListUsersOutput where
  Users : List User
  deriving DecidableEq, Repr

structure ListAttachedUserPoliciesInput where
  UserName : Option String
  deriving DecidableEq, Repr

/-- The SDK type `iam.AttachedPolicy`. -/
structure AttachedPolicy where
  PolicyArn : Option String
  PolicyName : Option String
  deriving DecidableEq, Repr

structure ListAttachedUserPoliciesOutput where
  AttachedPolicies : Option (List AttachedPolicy) := none
  deriving DecidableEq, Repr

structure ListGroupsForUserInput where
  UserName : Option String
  deriving DecidableEq, Repr

/-- The SDK type `iam.Group`, by its name and ARN. -/
structure Group where
  GroupName : Option String
  Arn : Option String
  deriving DecidableEq, Repr

structure ListGroupsForUserOutput where
  Groups : List Group := []
  deriving DecidableEq, Repr

structure ListUserPoliciesInput where
  UserName : Option String
  deriving DecidableEq, Repr

structure ListUserPoliciesOutput where
  PolicyNames : List (Option String) := []
  deriving DecidableEq, Repr

structure GetUserPolicyInput where
  PolicyName : Option String
  UserName : Option String
  deriving DecidableEq, Repr

structure GetUserPolicyOutput where
  PolicyDocument : Option String := none
  PolicyName : Option String := none
  UserName : Option String := none
  deriving DecidableEq, Repr

/-- The IAM client `*iam.IAM`: each method gives the pair `(output, err)` of the
SDK call; `ListUsersPages` is the list of pages the API answers with (each with
the `lastPage` flag the SDK passes to the callback) and the error of the request
that follows them, if that request fails. -/
structure IAM where
  GetUser : GetUserInput → Option GetUserOutput × Option GoError
  ListAttachedUserPolicies :
    ListAttachedUserPoliciesInput → Option ListAttachedUserPoliciesOutput × Option GoError
  ListGroupsForUser : ListGroupsForUserInput → Option ListGroupsForUserOutput × Option GoError
  ListUserPolicies : ListUserPoliciesInput → Option ListUserPoliciesOutput × Option GoError
  GetUserPolicy : GetUserPolicyInput → Option GetUserPolicyOutput × Option GoError
  ListUsersPages : List (ListUsersOutput × Bool) × Option GoError

/-- An API request issued by a hydrator. -/
inductive ApiCall where
  | GetUser (params : GetUserInput)
  | ListAttachedUserPolicies (params : ListAttachedUserPoliciesInput)
  | ListGroupsForUser (params : ListGroupsForUserInput)
  | ListUserPolicies (params : ListUserPoliciesInput)
  | GetUserPolicy (params : GetUserPolicyInput)
  deriving DecidableEq, Repr

/-- A hydrator run: the API requests issued, in order, and the Go result. -/
structure Traced (α : Type) where
  calls : List ApiCall
  result : GoResult α

/-- The value of a key-column qualifier (`proto.QualValue`). -/
inductive QualValue where
  | stringValue (s : String)
  | int64Value (i : Int)
  | boolValue (b : Bool)
  deriving DecidableEq, Repr

/-- The method `GetStringValue`, on a possibly nil qualifier: the string of a
string-valued qualifier, the empty string otherwise. -/
def GetStringValue : Option QualValue → String
  | some (.stringValue s) => s
  | _ => ""

/-- The part of `plugin.QueryData` the IAM functions read: the key-column
qualifiers, and what `IAMService(ctx, d.ConnectionManager)` returns. -/
structure QueryData where
  KeyColumnQuals : List (String × QualValue)
  IAMService : Except GoError IAM

/-- A value stored in `HydrateData.HydrateResults`. -/
inductive HydrateValue where
  | listUserPoliciesOutput (out : Option ListUserPoliciesOutput)
  | otherValue (typeName : String)
  deriving DecidableEq, Repr

/-- The type `plugin.HydrateData` for the IAM user table: the item is an `*iam.User`. -/
structure HydrateData where
  Item : User
  HydrateResults : List (String × HydrateValue) := []
  deriving DecidableEq, Repr

/-- A value of the `map[string]interface{}` values the IAM hydrators build. -/
inductive Value where
  | str (s : String)
  | json (j : JsonValue)
  | tagList (tags : Option (List Tag))
  | stringMap (m : Option (List (String × String)))

/-! ## table_aws_iam_user.go: hydrate functions -/

/-- The function `getUserInlinePolicy` (lines 357-388). -/
def getUserInlinePolicy (codec : Codec) (policyName : Option String) (userName : Option String)
    (svc : IAM) : GoResult (Option (List (String × Value))) :=
  let userPolicy : List (String × Value) := []
  let params : GetUserPolicyInput := { PolicyName := policyName, UserName := userName }
  match svc.GetUserPolicy params with
  | (_, some err) => .error err
  | (none, none) => .ok (some userPolicy)
  | (some tmpPolicy, none) =>
    match tmpPolicy.PolicyDocument with
    | none => .ok (some userPolicy)
    | some document =>
      match codec.QueryUnescape document with
      | .error decodeErr => .error decodeErr
      | .ok decoded =>
        match codec.Unmarshal decoded with
        | .error err => .error err
        | .ok rawPolicy =>
          match tmpPolicy.PolicyName with
          | none => .panic
          | some name => .ok (some [("PolicyDocument", .json rawPolicy), ("PolicyName", .str name)])

/-- The two buffered channels of the fan-out, as the queues of values sent. -/
structure Channels where
  policyCh : List (List (String × Value))
  errorCh : List GoError

/-- The goroutine body `getUserPolicyDataAsync` (lines 346-355): what it sends;
`none` when the goroutine panics. -/
def getUserPolicyDataAsync (codec : Codec) (policy : Option String) (userName : Option String)
    (svc : IAM) (ch : Channels) : Option Channels :=
  match getUserInlinePolicy codec policy userName svc with
  | .panic => none
  | .error err => some { ch with errorCh := ch.errorCh ++ [err] }
  | .ok (some rowData) => some { ch with policyCh := ch.policyCh ++ [rowData] }
  | .ok none => some ch

/-- The goroutines of the fan-out, run to completion in the order `completion`. -/
def runGoroutines (codec : Codec) (userName : Option String) (svc : IAM) :
    List (Option String) → Channels → Option Channels
  | [], ch => some ch
  | policy :: rest, ch =>
    match getUserPolicyDataAsync codec policy userName svc ch with
    | none => none
    | some ch' => runGoroutines codec userName svc rest ch'

/-- The function `getAwsIamUserInlinePolicies` (lines 307-344). One goroutine is
started per policy name, in list order; `completion` is the order in which the
goroutines finish (a permutation of the policy names). Both channels have room
for every goroutine, so no send blocks. -/
def getAwsIamUserInlinePolicies (codec : Codec) (d : QueryData) (h : HydrateData)
    (completion : List (Option String)) : Traced (List (List (String × Value))) :=
  let user := h.Item
  match mapGet h.HydrateResults "listAwsIamUserInlinePolicies" with
  | none => ⟨[], .panic⟩
  | some (.otherValue _) => ⟨[], .panic⟩
  | some (.listUserPoliciesOutput listUserPoliciesOutput) =>
    match d.IAMService with
    | .error err => ⟨[], .error err⟩
    | .ok svc =>
      match listUserPoliciesOutput with
      | none => ⟨[], .panic⟩
      | some out =>
        let calls := out.PolicyNames.map
          (fun policy => ApiCall.GetUserPolicy { PolicyName := policy, UserName := user.UserName })
        match runGoroutines codec user.UserName svc completion ⟨[], []⟩ with
        | none => ⟨calls, .panic⟩
        | some ch =>
          match ch.errorCh with
          | err :: _ => ⟨calls, .error err⟩
          | [] => ⟨calls, .ok ch.policyCh⟩

/-- An event of the fan-out of lines 318-327: the `go` statement that starts the
sub-call of a policy name, the end of that goroutine (after its send and
`wg.Done`), with whether the sub-call failed, or its panic. -/
inductive FanOutEvent where
  | started (params : GetUserPolicyInput)
  | finished (params : GetUserPolicyInput) (failed : Bool)
  | panicked (params : GetUserPolicyInput)
  deriving DecidableEq, Repr

/-- The end of the goroutine of one policy name, as an event. -/
def goroutineEnd (codec : Codec) (userName : Option String) (svc : IAM)
    (policy : Option String) : FanOutEvent :=
  match getUserInlinePolicy codec policy userName svc with
  | .panic => .panicked { PolicyName := policy, UserName := userName }
  | .error _ => .finished { PolicyName := policy, UserName := userName } true
  | .ok _ => .finished { PolicyName := policy, UserName := userName } false

/-- The call `wg.Wait()` of line 327: the goroutines still running end, here in
the order they were started; a panic ends the process. -/
def waitEvents (codec : Codec) (userName : Option String) (svc : IAM) :
    List (Option String) → List FanOutEvent
  | [] => []
  | policy :: rest =>
    match goroutineEnd codec userName svc policy with
    | .panicked params => [.panicked params]
    | ev => ev :: waitEvents codec userName svc rest

/-- The loop of lines 321-324 followed by `wg.Wait()`, as the sequence of events.
The loop body is `wg.Add(1)` and an unguarded `go` statement. The scheduler is
`early`: its n-th entry tells whether the goroutine started by the n-th iteration
ends before the next iteration (past its end, no goroutine does); `running` holds
the policy names whose goroutines are started and not ended. -/
def fanOutEvents (codec : Codec) (userName : Option String) (svc : IAM) :
    List (Option String) → List Bool → List (Option String) → List FanOutEvent
  | [], _, running => waitEvents codec userName svc running
  | policy :: rest, true :: early, running =>
    match goroutineEnd codec userName svc policy with
    | .panicked params =>
      [.started { PolicyName := policy, UserName := userName }, .panicked params]
    | ev =>
      .started { PolicyName := policy, UserName := userName } :: ev ::
        fanOutEvents codec userName svc rest early running
  | policy :: rest, false :: early, running =>
    .started { PolicyName := policy, UserName := userName } ::
      fanOutEvents codec userName svc rest early (running ++ [policy])
  | policy :: rest, [], running =>
    .started { PolicyName := policy, UserName := userName } ::
      fanOutEvents codec userName svc rest [] (running ++ [policy])

/-- The requests of the sub-calls started, in start order. -/
def startedCalls : List FanOutEvent → List GetUserPolicyInput
  | [] => []
  | .started params :: rest => params :: startedCalls rest
  | _ :: rest => startedCalls rest

/-- The policy names of the goroutines that ended, in the order they ended. -/
def finishOrder : List FanOutEvent → List (Option String)
  | [] => []
  | .finished params _ :: rest => params.PolicyName :: finishOrder rest
  | _ :: rest => finishOrder rest

/-- The completion order of the goroutines in the schedule `early`: the order in
which the goroutines of `fanOutEvents` end. -/
def fanOutCompletion (codec : Codec) (userName : Option String) (svc : IAM)
    (names : List (Option String)) (early : List Bool) : List (Option String) :=
  finishOrder (fanOutEvents codec userName svc names early [])

/-- The call `d.StreamListItem(ctx, item)`: the item is appended to the row stream. -/
def StreamListItem {α : Type} (stream : List α) (item : α) : List α :=
  stream ++ [item]

/-- A list function run: the items streamed to the host, in order, and the Go
result (the returned value of a list function is always nil). -/
structure Streamed (α : Type) where
  items : List α
  result : GoResult Unit

/-- The SDK page iteration behind every `...Pages` method: the callback gets each
page in turn with its `lastPage` flag and the iteration stops when it answers
false. The second component tells whether every page was handed over. -/
def eachPage {P σ : Type} (fn : σ → P → Bool → σ × Bool) : List (P × Bool) → σ → σ × Bool
  | [], s => (s, true)
  | (page, lastPage) :: rest, s =>
    let r := fn s page lastPage
    if r.2 then eachPage fn rest r.1 else (r.1, false)

/-- A `...Pages` method: the final state of the callback and the error returned,
which is the error of the request after the pages, when the iteration got there. -/
def callPages {P σ : Type} (script : List (P × Bool) × Option GoError)
    (fn : σ → P → Bool → σ × Bool) (s : σ) : σ × Option GoError :=
  let r := eachPage fn script.1 s
  (r.1, if r.2 then script.2 else none)

/-- The function `userFromKey` (lines 132-139). -/
def userFromKey (d : QueryData) : GoResult User :=
  let quals := d.KeyColumnQuals
  let name := GetStringValue (mapGet quals "name")
  .ok { UserName := some name }

/-- The page callback of `listIamUsers` (lines 152-157): every user of the page is
streamed and the answer is the constant `true`. -/
def listIamUsersPage (stream : List User) (page : ListUsersOutput) (_lastPage : Bool) :
    List User × Bool :=
  (page.Users.foldl StreamListItem stream, true)

/-- The function `listIamUsers` (lines 143-161). -/
def listIamUsers (d : QueryData) : Streamed User :=
  match d.IAMService with
  | .error err => ⟨[], .error err⟩
  | .ok svc =>
    let r := callPages svc.ListUsersPages listIamUsersPage []
    match r.2 with
    | some err => ⟨r.1, .error err⟩
    | none => ⟨r.1, .ok ()⟩

/-- The function `getIamUser` (lines 165-185). -/
def getIamUser (d : QueryData) (h : HydrateData) : Traced (Option User) :=
  let user := h.Item
  match d.IAMService with
  | .error err => ⟨[], .error err⟩
  | .ok svc =>
    let params : GetUserInput := { UserName := user.UserName }
    match svc.GetUser params with
    | (_, some err) => ⟨[.GetUser params], .error err⟩
    | (none, none) => ⟨[.GetUser params], .panic⟩
    | (some op, none) => ⟨[.GetUser params], .ok op.User⟩

/-- The get of `aws_iam_user` as its `GetConfig` binds it (lines 21-25): the item
is built by `ItemFromKey` and handed to `Hydrate`. -/
def getAwsIamUserByKey (d : QueryData) : Traced (Option User) :=
  match userFromKey d with
  | .ok item => getIamUser d { Item := item }
  | .error err => ⟨[], .error err⟩
  | .panic => ⟨[], .panic⟩

/-- The loop of lines 214-216: `turbotTags[*t.Key] = *t.Value` for each tag;
`none` when a key or a value is nil. -/
def turbotTagsLoop : List Tag → List (String × String) → Option (List (String × String))
  | [], turbotTags => some turbotTags
  | t :: rest, turbotTags =>
    match t.Key, t.Value with
    | some k, some v => turbotTagsLoop rest (mapSet turbotTags k v)
    | _, _ => none

/-- The function `getAwsIamUserData` (lines 187-231). The error of `GetUser` is
assigned to the blank identifier; the test of line 202 reads `err`, which still
holds the nil error of `IAMService`. -/
def getAwsIamUserData (d : QueryData) (h : HydrateData) : Traced (List (String × Value)) :=
  let user := h.Item
  match d.IAMService with
  | .error err => ⟨[], .error err⟩
  | .ok svc =>
    let err : Option GoError := none
    let params : GetUserInput := { UserName := user.UserName }
    let userData := (svc.GetUser params).1
    match err with
    | some err => ⟨[.GetUser params], .error err⟩
    | none =>
      match userData with
      | none => ⟨[.GetUser params], .panic⟩
      | some userData =>
        match userData.User with
        | none => ⟨[.GetUser params], .panic⟩
        | some u =>
          let tagsStep : Option (Option (List Tag) × Option (List (String × String))) :=
            match u.Tags with
            | none => some (none, none)
            | some ts => (turbotTagsLoop ts []).map (fun m => (some ts, some m))
          match tagsStep with
          | none => ⟨[.GetUser params], .panic⟩
          | some (tags, turbotTags) =>
            let boundaryStep : Option (String × String) :=
              match u.PermissionsBoundary with
              | none => some ("", "")
              | some v =>
                match v.PermissionsBoundaryArn with
                | none => some ("", "")
                | some arn => v.PermissionsBoundaryType.map (fun ty => (arn, ty))
            match boundaryStep with
            | none => ⟨[.GetUser params], .panic⟩
            | some (PermissionsBoundaryArn, PermissionsBoundaryType) =>
              ⟨[.GetUser params], .ok [
                ("TagsRaw", .tagList tags),
                ("Tags", .stringMap turbotTags),
                ("PermissionsBoundaryArn", .str PermissionsBoundaryArn),
                ("PermissionsBoundaryType", .str PermissionsBoundaryType)]⟩

/-- The loop of lines 255-257: `append(attachedPolicyArns, *policy.PolicyArn)`;
`none` when an ARN is nil. -/
def attachedPolicyArnsLoop : List AttachedPolicy → List String → Option (List String)
  | [], attachedPolicyArns => some attachedPolicyArns
  | policy :: rest, attachedPolicyArns =>
    match policy.PolicyArn with
    | some arn => attachedPolicyArnsLoop rest (attachedPolicyArns ++ [arn])
    | none => none

/-- The function `getAwsIamUserAttachedPolicies` (lines 233-261); the error of
`ListAttachedUserPolicies` is assigned to the blank identifier. -/
def getAwsIamUserAttachedPolicies (d : QueryData) (h : HydrateData) : Traced (List String) :=
  let user := h.Item
  match d.IAMService with
  | .error err => ⟨[], .error err⟩
  | .ok svc =>
    let err : Option GoError := none
    let params : ListAttachedUserPoliciesInput := { UserName := user.UserName }
    let userData := (svc.ListAttachedUserPolicies params).1
    match err with
    | some err => ⟨[.ListAttachedUserPolicies params], .error err⟩
    | none =>
      match userData with
      | none => ⟨[.ListAttachedUserPolicies params], .panic⟩
      | some userData =>
        match userData.AttachedPolicies with
        | none => ⟨[.ListAttachedUserPolicies params], .ok []⟩
        | some policies =>
          match attachedPolicyArnsLoop policies [] with
          | none => ⟨[.ListAttachedUserPolicies params], .panic⟩
          | some attachedPolicyArns =>
            ⟨[.ListAttachedUserPolicies params], .ok attachedPolicyArns⟩

/-- The function `getAwsIamUserGroups` (lines 263-283); the error of
`ListGroupsForUser` is assigned to the blank identifier. -/
def getAwsIamUserGroups (d : QueryData) (h : HydrateData) :
    Traced (Option ListGroupsForUserOutput) :=
  let user := h.Item
  match d.IAMService with
  | .error err => ⟨[], .error err⟩
  | .ok svc =>
    let err : Option GoError := none
    let params : ListGroupsForUserInput := { UserName := user.UserName }
    let userData := (svc.ListGroupsForUser params).1
    match err with
    | some err => ⟨[.ListGroupsForUser params], .error err⟩
    | none => ⟨[.ListGroupsForUser params], .ok userData⟩

/-- The function `listAwsIamUserInlinePolicies` (lines 285-305). -/
def listAwsIamUserInlinePolicies (d : QueryData) (h : HydrateData) :
    Traced (Option ListUserPoliciesOutput) :=
  let user := h.Item
  match d.IAMService with
  | .error err => ⟨[], .error err⟩
  | .ok svc =>
    let params : ListUserPoliciesInput := { UserName := user.UserName }
    match svc.ListUserPolicies params with
    | (_, some err) => ⟨[.ListUserPolicies params], .error err⟩
    | (userData, none) => ⟨[.ListUserPolicies params], .ok userData⟩

/-! ## The SSM SDK types used by the table -/

/-- The SDK type `ssm.MaintenanceWindowIdentity`. -/
structure MaintenanceWindowIdentity where
  Cutoff : Option Int := none
  Description : Option String := none
  Duration : Option Int := none
  Enabled : Option Bool := none
  EndDate : Option String := none
  Name : Option String := none
  NextExecutionTime : Option String := none
  Schedule : Option String := none
  ScheduleOffset : Option Int := none
  ScheduleTimezone : Option String := none
  StartDate : Option String := none
  WindowId : Option String := none
  deriving DecidableEq, Repr

/-- The SDK type `ssm.GetMaintenanceWindowOutput`. -/
structure GetMaintenanceWindowOutput where
  AllowUnassociatedTargets : Option Bool := none
  CreatedDate : Option Int := none
  Cutoff : Option Int := none
  Description : Option String := none
  Duration : Option Int := none
  Enabled : Option Bool := none
  EndDate : Option String := none
  ModifiedDate : Option Int := none
  Name : Option String := none
  NextExecutionTime : Option String := none
  Schedule : Option String := none
  ScheduleOffset : Option Int := none
  ScheduleTimezone : Option String := none
  StartDate : Option String := none
  WindowId : Option String := none
  deriving DecidableEq, Repr

structure DescribeMaintenanceWindowsOutput where
  WindowIdentities : List MaintenanceWindowIdentity
  deriving DecidableEq, Repr

/-- The SSM client `*ssm.SSM`: the pages `DescribeMaintenanceWindowsPages` answers
with, each with its `isLast` flag, and the error of the request after them. -/
structure SSM where
  DescribeMaintenanceWindowsPages :
    List (DescribeMaintenanceWindowsOutput × Bool) × Option GoError

/-- An `interface{}` value of the matrix item. -/
inductive MatrixValue where
  | str (s : String)
  | nonString
  deriving DecidableEq, Repr

/-- The part of the context and `plugin.QueryData` the maintenance-window
functions read: `plugin.GetMatrixItem(ctx)[matrixKeyRegion]` (`none` when nil),
the key-column qualifiers, and what `SsmService(ctx, d, region)` returns. -/
structure SsmQueryData where
  matrixRegion : Option MatrixValue
  KeyColumnQuals : List (String × QualValue)
  SsmService : String → Except GoError SSM

/-- The region lookup that opens every maintenance-window function (lines
177-181): the empty string when the matrix has no region, and `none` (a panic)
when the assertion `matrixRegion.(string)` fails. -/
def regionOfMatrix : Option MatrixValue → Option String
  | none => some ""
  | some (.str region) => some region
  | some .nonString => none

/-! ## table_aws_ssm_maintenance_window.go: list function -/

/-- The item streamed for one identity (lines 195-206). -/
def windowOfIdentity (parameter : MaintenanceWindowIdentity) : GetMaintenanceWindowOutput :=
  { Name := parameter.Name
    Cutoff := parameter.Cutoff
    NextExecutionTime := parameter.NextExecutionTime
    Schedule := parameter.Schedule
    ScheduleOffset := parameter.ScheduleOffset
    ScheduleTimezone := parameter.ScheduleTimezone
    WindowId := parameter.WindowId
    Description := parameter.Description
    Enabled := parameter.Enabled
    Duration := parameter.Duration }

/-- The function `listAwsSSMMaintenanceWindow` (lines 175-214). -/
def listAwsSSMMaintenanceWindow (d : SsmQueryData) : Streamed GetMaintenanceWindowOutput :=
  match regionOfMatrix d.matrixRegion with
  | none => ⟨[], .panic⟩
  | some region =>
    match d.SsmService region with
    | .error err => ⟨[], .error err⟩
    | .ok svc =>
      let r := callPages svc.DescribeMaintenanceWindowsPages
        (fun (stream : List GetMaintenanceWindowOutput)
            (page : DescribeMaintenanceWindowsOutput) (isLast : Bool) =>
          (page.WindowIdentities.foldl
            (fun st parameter => StreamListItem st (windowOfIdentity parameter)) stream,
           !isLast)) []
      match r.2 with
      | some err => ⟨r.1, .error err⟩
      | none => ⟨r.1, .ok ()⟩

/-! ## table_aws_ssm_maintenance_window.go: akas and tags -/

/-- The type `awsCommonColumnData`, declared outside the three files, by the
three fields line 224 reads. -/
structure AwsCommonColumnData where
  Partition : String
  Region : String
  AccountId : String
  deriving DecidableEq, Repr

/-- The type `plugin.HydrateData` for the maintenance-window table: the item is an
`*ssm.GetMaintenanceWindowOutput`, or nil (`none`). -/
structure SsmHydrateData where
  Item : Option GetMaintenanceWindowOutput
  deriving DecidableEq, Repr

/-- The function `getAwsSSMMaintenanceWindowAkas` (lines 216-227). The function
`getCommonColumns` is defined outside the three files and is a parameter: it
gives an error, or the value asserted to be an `*awsCommonColumnData` (`none`
when the assertion fails). -/
def getAwsSSMMaintenanceWindowAkas
    (getCommonColumns : SsmQueryData → SsmHydrateData → GoResult (Option AwsCommonColumnData))
    (d : SsmQueryData) (h : SsmHydrateData) : GoResult (List String) :=
  match h.Item with
  | none => .panic
  | some maintenanceWindowData =>
    match getCommonColumns d h with
    | .panic => .panic
    | .error err => .error err
    | .ok none => .panic
    | .ok (some commonColumnData) =>
      match maintenanceWindowData.WindowId with
      | none => .panic
      | some windowId =>
        let aka := "arn:" ++ commonColumnData.Partition ++ ":ssm:" ++ commonColumnData.Region
          ++ ":" ++ commonColumnData.AccountId ++ ":maintenancewindow" ++ "/" ++ windowId
        .ok [aka]

/-- The SDK type `ssm.Tag`. -/
structure SsmTag where
  Key : Option String
  Value : Option String
  deriving DecidableEq, Repr

/-- The `interface{}` a transform function finds in `d.Value`: a `[]*ssm.Tag`
(`none` for the nil slice), the nil interface, or a value of another type. -/
inductive TransformValue where
  | ssmTagList (tagList : Option (List SsmTag))
  | nilValue
  | otherValue (typeName : String)
  deriving DecidableEq, Repr

/-- The part of `transform.TransformData` the tag transform reads. -/
structure TransformData where
  Value : TransformValue
  deriving DecidableEq, Repr

/-- The loop of lines 337-339: `turbotTagsMap[*i.Key] = *i.Value` for each tag;
`none` when a key or a value is nil. -/
def ssmTagsLoop : List SsmTag → List (String × String) → Option (List (String × String))
  | [], turbotTagsMap => some turbotTagsMap
  | i :: rest, turbotTagsMap =>
    match i.Key, i.Value with
    | some k, some v => ssmTagsLoop rest (mapSet turbotTagsMap k v)
    | _, _ => none

/-- The function `ssmMaintenanceWindowTagListToTurbotTags` (lines 329-343); the
returned map is `none` when it is nil. -/
def ssmMaintenanceWindowTagListToTurbotTags (d : TransformData) :
    GoResult (Option (List (String × String))) :=
  match d.Value with
  | .ssmTagList tagList =>
    match tagList with
    | none => .ok none
    | some tags =>
      match ssmTagsLoop tags [] with
      | none => .panic
      | some turbotTagsMap => .ok (some turbotTagsMap)
  | _ => .panic

/-! ## Table descriptors -/

/-- The column types of `proto.ColumnType` the two tables use. -/
inductive ColumnType where
  | STRING | DATETIME | JSON | BOOL | INT | TIMESTAMP
  deriving DecidableEq, Repr

/-- The hydrate functions the two tables name. -/
inductive HydrateFunc where
  | userFromKey
  | listIamUsers
  | getIamUser
  | getAwsIamUserData
  | getAwsIamUserAttachedPolicies
  | getAwsIamUserGroups
  | listAwsIamUserInlinePolicies
  | getAwsIamUserInlinePolicies
  | getAwsSSMMaintenanceWindow
  | listAwsSSMMaintenanceWindow
  | getAwsSSMMaintenanceWindowAkas
  | getAwsSSMMaintenanceWindowTags
  | getMaintenanceWindowTargets
  | getMaintenanceWindowTasks
  | getCommonColumns
  deriving DecidableEq, Repr

/-- The transform functions the two tables name. -/
inductive TransformFunc where
  | arnToAkas
  | ssmMaintenanceWindowTagListToTurbotTags
  deriving DecidableEq, Repr

/-- One step of a `transform.ColumnTransforms` chain. -/
inductive TransformStep where
  | FromField (field : String)
  | FromValue
  | FromCamel
  | Transform (fn : TransformFunc)
  deriving DecidableEq, Repr

/-- The type `plugin.Column` (its field `Type` is `Type_` here); an absent `Hydrate`
or `Transform` is `none`. -/
structure Column where
  Name : String
  Description : String
  Type_ : ColumnType
  Hydrate : Option HydrateFunc := none
  Transform : Option (List TransformStep) := none
  deriving DecidableEq, Repr

/-- An error predicate (`plugin.ErrorPredicate`), by the expression that builds it. -/
inductive ErrorPredicate where
  | isNotFoundError (notFoundErrors : List String)
  deriving DecidableEq, Repr

/-- The key columns of a get (`plugin.KeyColumnSet`). -/
inductive KeyColumnSet where
  | SingleColumn (column : String)
  deriving DecidableEq, Repr

/-- The type `plugin.GetConfig`. -/
structure GetConfig where
  KeyColumns : Option KeyColumnSet := none
  ItemFromKey : Option HydrateFunc := none
  Hydrate : Option HydrateFunc := none
  ShouldIgnoreError : Option ErrorPredicate := none
  deriving DecidableEq, Repr

/-- The type `plugin.ListConfig`. -/
structure ListConfig where
  Hydrate : Option HydrateFunc := none
  deriving DecidableEq, Repr

/-- The type `plugin.HydrateDependencies`. -/
structure HydrateDependencies where
  Func : HydrateFunc
  Depends : List HydrateFunc
  deriving DecidableEq, Repr

/-- The matrix functions the tables name. -/
inductive MatrixItemFunc where
  | BuildRegionList
  deriving DecidableEq, Repr

/-- The type `plugin.Table`. -/
structure Table where
  Name : String
  Description : String
  Get : Option GetConfig := none
  GetMatrixItem : Option MatrixItemFunc := none
  HydrateDependencies : List HydrateDependencies := []
  Columns : List Column := []
  List : Option ListConfig := none
  deriving DecidableEq, Repr

/-- The type `plugin.Plugin`. -/
structure PluginDef where
  Name : String
  DefaultTransform : List TransformStep
  DefaultGetConfig : Option GetConfig
  TableMap : List (String × Table)

/-- Functions of this repository defined outside the three files, taken as
parameters: the two column helpers, `resourceInterfaceDescription`, and, by the
name of its constructor, the descriptor of every other table. -/
structure Helpers where
  awsColumns : List Column → List Column
  awsRegionalColumns : List Column → List Column
  resourceInterfaceDescription : String → String
  tableOf : String → Table

/-- The function `tableAwsIamUser` (lines 17-128). -/
def tableAwsIamUser (hp : Helpers) : Table :=
  { Name := "aws_iam_user"
    Description := "AWS IAM User"
    Get := some
      { KeyColumns := some (.SingleColumn "name")
        ItemFromKey := some .userFromKey
        Hydrate := some .getIamUser }
    List := some { Hydrate := some .listIamUsers }
    HydrateDependencies :=
      [{ Func := .getAwsIamUserInlinePolicies, Depends := [.listAwsIamUserInlinePolicies] }]
    Columns := hp.awsColumns [
      { Name := "name"
        Description := "The friendly name identifying the user"
        Type_ := .STRING
        Transform := some [.FromField "UserName"] },
      { Name := "user_id"
        Description := "The stable and unique string identifying the user"
        Type_ := .STRING },
      { Name := "path"
        Description := "The path to the user"
        Type_ := .STRING },
      { Name := "arn"
        Description := "The Amazon Resource Name (ARN) that identifies the user"
        Type_ := .STRING },
      { Name := "create_date"
        Description := "The date and time, when the user was created"
        Type_ := .DATETIME },
      { Name := "password_last_used"
        Description := "The date and time, when the user\x27s password was last used to sign in to an AWS website"
        Type_ := .DATETIME },
      { Name := "permissions_boundary_arn"
        Description := "The ARN of the policy used to set the permissions boundary for the user"
        Type_ := .STRING
        Hydrate := some .getAwsIamUserData },
      { Name := "permissions_boundary_type"
        Description := "The permissions boundary usage type that indicates what type of IAM resource " ++
          "is used as the permissions boundary for an entity. This data type can only have a value of Policy"
        Type_ := .STRING
        Hydrate := some .getAwsIamUserData },
      { Name := "groups"
        Description := "A list of groups attached to the user"
        Type_ := .JSON
        Hydrate := some .getAwsIamUserGroups },
      { Name := "inline_policies"
        Description := "A list of policy documents that are embedded as inline policies for the user"
        Type_ := .JSON
        Hydrate := some .getAwsIamUserInlinePolicies
        Transform := some [.FromValue] },
      { Name := "attached_policy_arns"
        Description := "A list of managed policies attached to the user"
        Type_ := .JSON
        Hydrate := some .getAwsIamUserAttachedPolicies
        Transform := some [.FromValue] },
      { Name := "tags_src"
        Description := "A list of tags that are attached to the user"
        Type_ := .JSON
        Hydrate := some .getAwsIamUserData },
      { Name := "tags"
        Description := hp.resourceInterfaceDescription "tags"
        Type_ := .JSON
        Hydrate := some .getAwsIamUserData },
      { Name := "title"
        Description := hp.resourceInterfaceDescription "title"
        Type_ := .STRING
        Transform := some [.FromField "UserName"] },
      { Name := "akas"
        Description := hp.resourceInterfaceDescription "akas"
        Type_ := .JSON
        Transform := some [.FromField "Arn", .Transform .arnToAkas] }] }

/-- The function `tableAwsSSMMaintenanceWindow` (lines 14-130). -/
def tableAwsSSMMaintenanceWindow (hp : Helpers) : Table :=
  { Name := "aws_ssm_maintenance_window"
    Description := "AWS SSM Maintenance Window"
    Get := some
      { KeyColumns := some (.SingleColumn "window_id")
        ShouldIgnoreError := some (.isNotFoundError ["DoesNotExistException"])
        Hydrate := some .getAwsSSMMaintenanceWindow }
    List := some { Hydrate := some .listAwsSSMMaintenanceWindow }
    GetMatrixItem := some .BuildRegionList
    Columns := hp.awsRegionalColumns [
      { Name := "name"
        Description := "The name of the  Maintenance Window."
        Type_ := .STRING },
      { Name := "window_id"
        Description := "The ID of the Maintenance Window."
        Type_ := .STRING },
      { Name := "enabled"
        Description := "Indicates whether the Maintenance Window is enabled."
        Type_ := .BOOL },
      { Name := "allow_unassociated_targets"
        Description := "Whether targets must be registered with the Maintenance Window before tasks can be defined for those targets."
        Type_ := .BOOL
        Hydrate := some .getAwsSSMMaintenanceWindow },
      { Name := "description"
        Description := "A description of the Maintenance Window."
        Type_ := .STRING },
      { Name := "tags_src"
        Description := "A list of tags assigned to the Maintenance Window"
        Type_ := .JSON
        Hydrate := some .getAwsSSMMaintenanceWindowTags
        Transform := some [.FromField "TagList"] },
      { Name := "duration"
        Description := "The duration of the Maintenance Window in hours."
        Type_ := .STRING },
      { Name := "cutoff"
        Description := "The number of hours before the end of the Maintenance Window that Systems Manager stops scheduling new tasks for execution."
        Type_ := .INT },
      { Name := "schedule"
        Description := "The schedule of the Maintenance Window in the form of a cron or rate expression."
        Type_ := .STRING },
      { Name := "schedule_offset"
        Description := "The number of days to wait to run a Maintenance Window after the scheduled CRON expression date and time."
        Type_ := .INT },
      { Name := "targets"
        Description := "The targets of Maintenance Window."
        Type_ := .JSON
        Hydrate := some .getMaintenanceWindowTargets
        Transform := some [.FromField "Targets"] },
      { Name := "tasks"
        Description := "The Tasks of Maintenance Window."
        Type_ := .JSON
        Hydrate := some .getMaintenanceWindowTasks
        Transform := some [.FromField "Tasks"] },
      { Name := "modified_date"
        Description := "The date the Maintenance Window was last modified."
        Type_ := .TIMESTAMP
        Hydrate := some .getAwsSSMMaintenanceWindow },
      { Name := "next_execution_time"
        Description := "The next time the maintenance window will actually run, taking into account any specified times for the Maintenance Window to become active or inactive."
        Type_ := .DATETIME },
      { Name := "title"
        Description := hp.resourceInterfaceDescription "title"
        Type_ := .STRING
        Transform := some [.FromField "Name"] },
      { Name := "tags"
        Description := hp.resourceInterfaceDescription "tags"
        Type_ := .JSON
        Hydrate := some .getAwsSSMMaintenanceWindowTags
        Transform := some [.FromField "TagList", .Transform .ssmMaintenanceWindowTagListToTurbotTags] },
      { Name := "akas"
        Description := hp.resourceInterfaceDescription "akas"
        Type_ := .JSON
        Hydrate := some .getAwsSSMMaintenanceWindowAkas
        Transform := some [.FromValue] }] }

/-! ## plugin.go -/

/-- The constant `pluginName`. -/
def pluginName : String := "steampipe-plugin-aws"

/-- The function `Plugin` (lines 19-107). -/
def Plugin (hp : Helpers) : PluginDef :=
  { Name := pluginName
    DefaultTransform := [.FromCamel]
    DefaultGetConfig := some
      { ShouldIgnoreError := some (.isNotFoundError ["ResourceNotFoundException", "NoSuchEntity"]) }
    TableMap := [
    ("aws_account", hp.tableOf "tableAwsAccount"),
    ("aws_acm_certificate", hp.tableOf "tableAwsAcmCertificate"),
    ("aws_api_gateway_api_key", hp.tableOf "tableAwsAPIGatewayAPIKey"),
    ("aws_api_gateway_authorizer", hp.tableOf "tableAwsAPIGatewayAuthorizer"),
    ("aws_api_gateway_rest_api", hp.tableOf "tableAwsAPIGatewayRestAPI"),
    ("aws_api_gateway_stage", hp.tableOf "tableAwsAPIGatewayStage"),
    ("aws_api_gateway_usage_plan", hp.tableOf "tableAwsAPIGatewayUsagePlan"),
    ("aws_api_gatewayv2_api", hp.tableOf "tableAwsAPIGatewayV2Api"),
    ("aws_api_gatewayv2_domain_name", hp.tableOf "tableAwsAPIGatewayV2DomainName"),
    ("aws_api_gatewayv2_stage", hp.tableOf "tableAwsAPIGatewayV2Stage"),
    ("aws_availability_zone", hp.tableOf "tableAwsAvailabilityZone"),
    ("aws_cloudformation_stack", hp.tableOf "tableAwsCloudFormationStack"),
    ("aws_cloudtrail_trail_event", hp.tableOf "tableAwsCloudtrailEvent"),
    ("aws_cloudwatch_log_group", hp.tableOf "tableAwsCloudwatchLogGroup"),
    ("aws_cloudwatch_log_metric_filter", hp.tableOf "tableAwsCloudwatchLogMetricFilter"),
    ("aws_dynamodb_backup", hp.tableOf "tableAwsDynamoDBBackup"),
    ("aws_dynamodb_global_table", hp.tableOf "tableAwsDynamoDBGlobalTable"),
    ("aws_dynamodb_table", hp.tableOf "tableAwsDynamoDBTable"),
    ("aws_ebs_snapshot", hp.tableOf "tableAwsEBSSnapshot"),
    ("aws_ebs_volume", hp.tableOf "tableAwsEBSVolume"),
    ("aws_ec2_ami", hp.tableOf "tableAwsEc2Ami"),
    ("aws_ec2_application_load_balancer", hp.tableOf "tableAwsEc2ApplicationLoadBalancer"),
    ("aws_ec2_autoscaling_group", hp.tableOf "tableAwsEc2ASG"),
    ("aws_ec2_classic_load_balancer", hp.tableOf "tableAwsEc2ClassicLoadBalancer"),
    ("aws_ec2_instance", hp.tableOf "tableAwsEc2Instance"),
    ("aws_ec2_instance_availability", hp.tableOf "tableAwsInstanceAvailability"),
    ("aws_ec2_instance_type", hp.tableOf "tableAwsInstanceType"),
    ("aws_ec2_key_pair", hp.tableOf "tableAwsEc2KeyPair"),
    ("aws_ec2_launch_configuration", hp.tableOf "tableAwsEc2LaunchConfiguration"),
    ("aws_ec2_load_balancer_listener", hp.tableOf "tableAwsEc2ApplicationLoadBalancerListener"),
    ("aws_ec2_network_interface", hp.tableOf "tableAwsEc2NetworkInterface"),
    ("aws_ec2_network_load_balancer", hp.tableOf "tableAwsEc2NetworkLoadBalancer"),
    ("aws_ec2_target_group", hp.tableOf "tableAwsEc2TargetGroup"),
    ("aws_ec2_transit_gateway", hp.tableOf "tableAwsEc2TransitGateway"),
    ("aws_ec2_transit_gateway_route_table", hp.tableOf "tableAwsEc2TransitGatewayRouteTable"),
    ("aws_ec2_transit_gateway_vpc_attachment", hp.tableOf "tableAwsEc2TransitGatewayVpcAttachment"),
    ("aws_iam_access_key", hp.tableOf "tableAwsIamAccessKey"),
    ("aws_iam_group", hp.tableOf "tableAwsIamGroup"),
    ("aws_iam_policy", hp.tableOf "tableAwsIamPolicy"),
    ("aws_iam_role", hp.tableOf "tableAwsIamRole"),
    ("aws_iam_user", tableAwsIamUser hp),
    ("aws_kms_key", hp.tableOf "tableAwsKmsKey"),
    ("aws_lambda_alias", hp.tableOf "tableAwsLambdaAlias"),
    ("aws_lambda_function", hp.tableOf "tableAwsLambdaFunction"),
    ("aws_lambda_version", hp.tableOf "tableAwsLambdaVersion"),
    ("aws_rds_db_cluster", hp.tableOf "tableAwsRDSDBCluster"),
    ("aws_rds_db_cluster_parameter_group", hp.tableOf "tableAwsRDSDBClusterParameterGroup"),
    ("aws_rds_db_cluster_snapshot", hp.tableOf "tableAwsRDSDBClusterSnapshot"),
    ("aws_rds_db_instance", hp.tableOf "tableAwsRDSDBInstance"),
    ("aws_rds_db_option_group", hp.tableOf "tableAwsRDSDBOptionGroup"),
    ("aws_rds_db_parameter_group", hp.tableOf "tableAwsRDSDBParameterGroup"),
    ("aws_rds_db_snapshot", hp.tableOf "tableAwsRDSDBSnapshot"),
    ("aws_rds_db_subnet_group", hp.tableOf "tableAwsRDSDBSubnetGroup"),
    ("aws_region", hp.tableOf "tableAwsRegion"),
    ("aws_s3_account_settings", hp.tableOf "tableAwsS3AccountSettings"),
    ("aws_s3_bucket", hp.tableOf "tableAwsS3Bucket"),
    ("aws_sns_topic", hp.tableOf "tableAwsSnsTopic"),
    ("aws_sns_topic_subscription", hp.tableOf "tableAwsSnsTopicSubscription"),
    ("aws_sqs_queue", hp.tableOf "tableAwsSqsQueue"),
    ("aws_ssm_parameter", hp.tableOf "tableAwsSSMParameter"),
    ("aws_vpc", hp.tableOf "tableAwsVpc"),
    ("aws_vpc_customer_gateway", hp.tableOf "tableAwsVpcCustomerGateway"),
    ("aws_vpc_dhcp_options", hp.tableOf "tableAwsVpcDhcpOptions"),
    ("aws_vpc_egress_only_internet_gateway", hp.tableOf "tableAwsVpcEgressOnlyIGW"),
    ("aws_vpc_eip", hp.tableOf "tableAwsVpcEip"),
    ("aws_vpc_endpoint", hp.tableOf "tableAwsVpcEndpoint"),
    ("aws_vpc_endpoint_service", hp.tableOf "tableAwsVpcEndpointService"),
    ("aws_vpc_internet_gateway", hp.tableOf "tableAwsVpcInternetGateway"),
    ("aws_vpc_nat_gateway", hp.tableOf "tableAwsVpcNatGateway"),
    ("aws_vpc_network_acl", hp.tableOf "tableAwsVpcNetworkACL"),
    ("aws_vpc_route", hp.tableOf "tableAwsVpcRoute"),
    ("aws_vpc_route_table", hp.tableOf "tableAwsVpcRouteTable"),
    ("aws_vpc_security_group", hp.tableOf "tableAwsVpcSecurityGroup"),
    ("aws_vpc_security_group_rule", hp.tableOf "tableAwsVpcSecurityGroupRule"),
    ("aws_vpc_subnet", hp.tableOf "tableAwsVpcSubnet"),
    ("aws_vpc_vpn_gateway", hp.tableOf "tableAwsVpcVpnGateway")] }

/-! ## Host behaviour the tables rely on -/

/-- Modelled from the spec: the helper `isNotFoundError`, defined outside the three
files. The predicate it builds holds of an error exactly when the error carries
one of the given codes (section 4.1: not-found is "configurable per error code"). -/
def isNotFoundError (notFoundErrors : List String) (err : GoError) : Bool :=
  match err.code? with
  | some code => notFoundErrors.contains code
  | none => false

/-- The predicate an `ErrorPredicate` expression denotes. -/
def ErrorPredicate.holds : ErrorPredicate → GoError → Bool
  | .isNotFoundError notFoundErrors, err => Aws.isNotFoundError notFoundErrors err

/-- Modelled from the spec: the not-found rule of a table's get (section 6, "a
table- or plugin-level set of error codes"): the rule of the table's own
`GetConfig` when it sets one, the rule of the plugin's `DefaultGetConfig` otherwise. -/
def shouldIgnoreError (p : PluginDef) (t : Table) : Option ErrorPredicate :=
  match t.Get.bind (fun g => g.ShouldIgnoreError) with
  | some rule => some rule
  | none => p.DefaultGetConfig.bind (fun g => g.ShouldIgnoreError)

/-- Modelled from the spec: what the host makes of the result of a get hydrate call
(sections 4.1 and 7): an error the not-found rule holds of becomes the empty
result `ok none`, any other error is surfaced, a value is the one item. -/
def hostGet {α : Type} (p : PluginDef) (t : Table) (r : GoResult α) : GoResult (Option α) :=
  match r with
  | .ok item => .ok (some item)
  | .panic => .panic
  | .error err =>
    match shouldIgnoreError p t with
    | some rule => if rule.holds err then .ok none else .error err
    | none => .error err

/-- Camel case of a snake-case name, on characters: an underscore is dropped and
the character after it, like the first one, is put in upper case. -/
def camelChars : Bool → List Char → List Char
  | _, [] => []
  | upper, c :: cs =>
    if c = '_' then camelChars true cs
    else (if upper then c.toUpper else c) :: camelChars false cs

/-- Modelled from the spec: the field name the SDK transform `transform.FromCamel()`
reads for a column (section 4.3, "a default field-name-derived mapping"): the
column name in camel case. -/
def toCamel (columnName : String) : String :=
  String.mk (camelChars true columnName.data)

/-- Modelled from the spec: the field a column reads from its hydrate result when
it declares no transform, the plugin's `DefaultTransform` being `FromCamel`. -/
def defaultField (p : PluginDef) (c : Column) : Option String :=
  match c.Transform, p.DefaultTransform with
  | none, [.FromCamel] => some (toCamel c.Name)
  | _, _ => none

/-- The columns the table literal of `tableAwsIamUser` lists, before `awsColumns`
adds the common ones: the descriptor built with `awsColumns` the identity. -/
def iamUserColumns (hp : Helpers) : List Column :=
  (tableAwsIamUser { hp with awsColumns := fun cols => cols }).Columns

/-- Modelled from the spec: the key under which the host stores the result of a
hydrate function in `HydrateResults` (section 3, a hydrate result is "keyed by
hydrator name"): the name of the function. -/
def HydrateFunc.key : HydrateFunc → String
  | .userFromKey => "userFromKey"
  | .listIamUsers => "listIamUsers"
  | .getIamUser => "getIamUser"
  | .getAwsIamUserData => "getAwsIamUserData"
  | .getAwsIamUserAttachedPolicies => "getAwsIamUserAttachedPolicies"
  | .getAwsIamUserGroups => "getAwsIamUserGroups"
  | .listAwsIamUserInlinePolicies => "listAwsIamUserInlinePolicies"
  | .getAwsIamUserInlinePolicies => "getAwsIamUserInlinePolicies"
  | .getAwsSSMMaintenanceWindow => "getAwsSSMMaintenanceWindow"
  | .listAwsSSMMaintenanceWindow => "listAwsSSMMaintenanceWindow"
  | .getAwsSSMMaintenanceWindowAkas => "getAwsSSMMaintenanceWindowAkas"
  | .getAwsSSMMaintenanceWindowTags => "getAwsSSMMaintenanceWindowTags"
  | .getMaintenanceWindowTargets => "getMaintenanceWindowTargets"
  | .getMaintenanceWindowTasks => "getMaintenanceWindowTasks"
  | .getCommonColumns => "getCommonColumns"

/-- The dependency relation a table declares in `HydrateDependencies`: `f` depends
on `g` when an entry has `Func` equal to `f` and lists `g` in `Depends`. -/
def dependsOn (t : Table) (f g : HydrateFunc) : Bool :=
  t.HydrateDependencies.any (fun hd => decide (hd.Func = f) && hd.Depends.contains g)

/-- The hydrate results cut down to the entry of one key. -/
def onlyKey (results : List (String × HydrateValue)) (key : String) :
    List (String × HydrateValue) :=
  match mapGet results key with
  | some v => [(key, v)]
  | none => []

/-! ## Auxiliary definitions for the statements -/

/-- The error a sub-call sends on the error channel, if it fails. -/
def errorOf {α : Type} : GoResult α → Option GoError
  | .error err => some err
  | _ => none

/-- The map a sub-call sends on the policy channel, if it succeeds with one. -/
def policyOf {α : Type} : GoResult (Option α) → Option α
  | .ok (some rowData) => some rowData
  | _ => none

/-- A decoder pair for the examples: `%` alone is a malformed escape, every other
text is its own decoding, and `null` is the only JSON text. -/
def exampleCodec : Codec :=
  { QueryUnescape := fun s =>
      if s = "%" then .error (.other "invalid URL escape") else .ok s
    Unmarshal := fun s =>
      if s = "null" then .ok .null else .error (.other "invalid character") }

/-- An IAM client for the examples. `GetUserPolicy` is denied for the policy
`denied`, gives a malformed document for `broken`, the document `null` otherwise;
`ListUsers` answers with two pages, of two users and of one. -/
def exampleIAM : IAM :=
  { GetUser := fun p => (some { User := some { UserName := p.UserName } }, none)
    ListAttachedUserPolicies := fun _ => (some {}, none)
    ListGroupsForUser := fun _ => (some {}, none)
    ListUserPolicies := fun _ => (some { PolicyNames := [some "a", some "b"] }, none)
    GetUserPolicy := fun p =>
      if p.PolicyName = some "denied" then (some {}, some (.awsErr "AccessDenied" "denied"))
      else if p.PolicyName = some "broken" then
        (some { PolicyDocument := some "%", PolicyName := p.PolicyName }, none)
      else (some { PolicyDocument := some "null", PolicyName := p.PolicyName }, none)
    ListUsersPages :=
      ([({ Users := [{ UserName := some "u1" }, { UserName := some "u2" }] }, false),
        ({ Users := [{ UserName := some "u3" }] }, true)], none) }

/-- An IAM client whose `GetUserPolicy` succeeds with the document `null` and no
policy name. -/
def namelessIAM : IAM :=
  { exampleIAM with
    GetUserPolicy := fun _ => (some { PolicyDocument := some "null" }, none) }

/-- A query for the examples: the key column `name` is `alice`, the session is
`exampleIAM`. -/
def exampleQuery : QueryData :=
  { KeyColumnQuals := [("name", .stringValue "alice")]
    IAMService := .ok exampleIAM }

/-- Hydrate data for the examples: the user `alice` with the listed inline policy
names as the result of `listAwsIamUserInlinePolicies`. -/
def exampleHydrate (names : List (Option String)) : HydrateData :=
  { Item := { UserName := some "alice" }
    HydrateResults :=
      [("listAwsIamUserInlinePolicies", .listUserPoliciesOutput (some { PolicyNames := names }))] }

/-- An IAM client whose every request fails with `err`; as in the SDK, a failed
request hands back its empty output struct next to the error. -/
def failingIAM (err : GoError) : IAM :=
  { GetUser := fun _ => (some {}, some err)
    ListAttachedUserPolicies := fun _ => (some {}, some err)
    ListGroupsForUser := fun _ => (some {}, some err)
    ListUserPolicies := fun _ => (some {}, some err)
    GetUserPolicy := fun _ => (some {}, some err)
    ListUsersPages := ([], some err) }

/-- A query whose session is created and whose every API request fails with `err`. -/
def failingQuery (err : GoError) : QueryData :=
  { KeyColumnQuals := []
    IAMService := .ok (failingIAM err) }

/-- An SSM client for the examples: two pages, of two identities and of one, the
second flagged as last. -/
def exampleSSM : SSM :=
  { DescribeMaintenanceWindowsPages :=
      ([({ WindowIdentities := [{ WindowId := some "mw-1", Name := some "first" },
                                 { WindowId := some "mw-2", Enabled := some true }] }, false),
        ({ WindowIdentities := [{ WindowId := some "mw-3", Duration := some 4 }] }, true)],
       none) }

/-- A maintenance-window query for the examples, in region `us-east-1`. -/
def exampleSsmQuery : SsmQueryData :=
  { matrixRegion := some (.str "us-east-1")
    KeyColumnQuals := []
    SsmService := fun _ => .ok exampleSSM }

/-- Common-column data for the examples. -/
def exampleCommonColumns (_d : SsmQueryData) (_h : SsmHydrateData) :
    GoResult (Option AwsCommonColumnData) :=
  .ok (some { Partition := "aws", Region := "us-east-1", AccountId := "123456789012" })

/-! ## Lemmas on the fan-out -/

theorem runGoroutines_channels (codec : Codec) (userName : Option String) (svc : IAM)
    (l : List (Option String)) (ch : Channels)
    (hret : ∀ p ∈ l, (getUserInlinePolicy codec p userName svc).returns = true) :
    runGoroutines codec userName svc l ch =
      some ⟨ch.policyCh ++ l.filterMap (fun p => policyOf (getUserInlinePolicy codec p userName svc)),
            ch.errorCh ++ l.filterMap (fun p => errorOf (getUserInlinePolicy codec p userName svc))⟩ := by
  induction l generalizing ch with
  | nil => simp [runGoroutines]
  | cons p rest ih =>
    have hp := hret p (List.mem_cons_self p rest)
    have hrest : ∀ q ∈ rest, (getUserInlinePolicy codec q userName svc).returns = true :=
      fun q hq => hret q (List.mem_cons_of_mem p hq)
    cases hg : getUserInlinePolicy codec p userName svc with
    | panic => rw [hg] at hp; simp [GoResult.returns] at hp
    | error err =>
      simp [runGoroutines, getUserPolicyDataAsync, hg, ih _ hrest, errorOf, policyOf]
    | ok v =>
      cases v with
      | none => simp [runGoroutines, getUserPolicyDataAsync, hg, ih _ hrest, errorOf, policyOf]
      | some m => simp [runGoroutines, getUserPolicyDataAsync, hg, ih _ hrest, errorOf, policyOf]

theorem getUserInlinePolicy_ok_some (codec : Codec) (p userName : Option String) (svc : IAM)
    (v : Option (List (String × Value)))
    (h : getUserInlinePolicy codec p userName svc = .ok v) : ∃ m, v = some m := by
  rcases hcall : svc.GetUserPolicy { PolicyName := p, UserName := userName } with ⟨out, err⟩
  cases err with
  | some e => simp [getUserInlinePolicy, hcall] at h
  | none =>
    cases out with
    | none =>
      simp [getUserInlinePolicy, hcall] at h
      exact ⟨_, h.symm⟩
    | some tmpPolicy =>
      cases hdoc : tmpPolicy.PolicyDocument with
      | none =>
        simp [getUserInlinePolicy, hcall, hdoc] at h
        exact ⟨_, h.symm⟩
      | some document =>
        cases hdec : codec.QueryUnescape document with
        | error e => simp [getUserInlinePolicy, hcall, hdoc, hdec] at h
        | ok decoded =>
          cases hjson : codec.Unmarshal decoded with
          | error e => simp [getUserInlinePolicy, hcall, hdoc, hdec, hjson] at h
          | ok rawPolicy =>
            cases hname : tmpPolicy.PolicyName with
            | none => simp [getUserInlinePolicy, hcall, hdoc, hdec, hjson, hname] at h
            | some name =>
              simp [getUserInlinePolicy, hcall, hdoc, hdec, hjson, hname] at h
              exact ⟨_, h.symm⟩

theorem filterMap_errorOf_mem (f : Option String → GoResult (Option (List (String × Value))))
    (l : List (Option String)) (err : GoError)
    (h : err ∈ l.filterMap (fun p => errorOf (f p))) : ∃ p ∈ l, f p = .error err := by
  rw [List.mem_filterMap] at h
  obtain ⟨p, hp, he⟩ := h
  refine ⟨p, hp, ?_⟩
  cases hf : f p with
  | error e => rw [hf] at he; simp [errorOf] at he; rw [he]
  | panic => rw [hf] at he; simp [errorOf] at he
  | ok v => rw [hf] at he; simp [errorOf] at he

theorem filterMap_all_ok (f : Option String → GoResult (Option (List (String × Value))))
    (l : List (Option String)) (hok : ∀ p ∈ l, ∃ m, f p = .ok (some m)) :
    l.filterMap (fun p => errorOf (f p)) = [] ∧
    (l.filterMap (fun p => policyOf (f p))).map (fun m => GoResult.ok (some m)) = l.map f := by
  induction l with
  | nil => simp
  | cons p rest ih =>
    obtain ⟨m, hm⟩ := hok p (List.mem_cons_self p rest)
    obtain ⟨h1, h2⟩ := ih (fun q hq => hok q (List.mem_cons_of_mem p hq))
    have e1 : errorOf (f p) = none := by rw [hm]; rfl
    have e2 : policyOf (f p) = some m := by rw [hm]; rfl
    constructor
    · rw [List.filterMap_cons_none (f := fun p => errorOf (f p)) e1]; exact h1
    · rw [List.filterMap_cons_some (f := fun p => policyOf (f p)) e2, List.map_cons, h2,
        List.map_cons, hm]

/-! ## Lemmas on paging -/

theorem foldl_StreamListItem {α : Type} (l : List α) (stream : List α) :
    l.foldl StreamListItem stream = stream ++ l := by
  induction l generalizing stream with
  | nil => simp
  | cons a rest ih => simp [List.foldl_cons, ih, StreamListItem]

theorem foldl_StreamListItem_map {α β : Type} (f : α → β) (l : List α) (stream : List β) :
    l.foldl (fun st a => StreamListItem st (f a)) stream = stream ++ l.map f := by
  induction l generalizing stream with
  | nil => simp
  | cons a rest ih =>
    rw [List.foldl_cons, ih]
    simp [StreamListItem]

theorem foldl_append_pages {P β : Type} (f : P → List β) (pages : List (P × Bool))
    (stream : List β) :
    pages.foldl (fun st pg => st ++ f pg.1) stream
      = stream ++ (pages.map (fun pg => f pg.1)).flatten := by
  induction pages generalizing stream with
  | nil => simp
  | cons pg rest ih => simp [List.foldl_cons, ih, List.append_assoc]

theorem eachPage_always_continue {P σ : Type} (step : σ → P → σ) (pages : List (P × Bool))
    (s : σ) :
    eachPage (fun st pg (_ : Bool) => (step st pg, true)) pages s
      = (pages.foldl (fun st pg => step st pg.1) s, true) := by
  induction pages generalizing s with
  | nil => rfl
  | cons pg rest ih =>
    obtain ⟨page, flag⟩ := pg
    simp [eachPage, ih]

theorem eachPage_until_last {P σ : Type} (step : σ → P → σ) (pages : List (P × Bool)) (s : σ)
    (hflags : ∀ pg ∈ pages.dropLast, pg.2 = false) :
    (eachPage (fun st pg isLast => (step st pg, !isLast)) pages s).1
      = pages.foldl (fun st pg => step st pg.1) s := by
  induction pages generalizing s with
  | nil => rfl
  | cons pg rest ih =>
    obtain ⟨page, flag⟩ := pg
    cases rest with
    | nil => cases flag <;> simp [eachPage]
    | cons q more =>
      have hflag : flag = false :=
        hflags (page, flag) (by simp [List.dropLast])
      have hrest : ∀ pg ∈ (q :: more).dropLast, pg.2 = false := by
        intro pg hpg
        exact hflags pg (by simp [List.dropLast]; exact Or.inr hpg)
      subst hflag
      have := ih (step s page) hrest
      simpa [eachPage] using this

/-! ## Lemma on the map of getAwsIamUserData -/

theorem getAwsIamUserData_keys (d : QueryData) (h : HydrateData) (m : List (String × Value))
    (hm : (getAwsIamUserData d h).result = .ok m) :
    mapKeys m = ["TagsRaw", "Tags", "PermissionsBoundaryArn", "PermissionsBoundaryType"] := by
  simp only [getAwsIamUserData] at hm
  split at hm
  · simp at hm
  · split at hm
    · simp at hm
    · split at hm
      · simp at hm
      · split at hm
        · simp at hm
        · split at hm
          · simp at hm
          · simp at hm
            rw [← hm]
            rfl

/-! ## Lemmas on the events of the fan-out -/

theorem startedCalls_waitEvents (codec : Codec) (userName : Option String) (svc : IAM)
    (running : List (Option String)) :
    startedCalls (waitEvents codec userName svc running) = [] := by
  induction running with
  | nil => rfl
  | cons policy rest ih =>
    cases hg : getUserInlinePolicy codec policy userName svc <;>
      simp [waitEvents, goroutineEnd, hg, startedCalls, ih]

theorem startedCalls_fanOutEvents (codec : Codec) (userName : Option String) (svc : IAM)
    (names : List (Option String)) (early : List Bool) (running : List (Option String))
    (hret : ∀ p ∈ names, (getUserInlinePolicy codec p userName svc).returns = true) :
    startedCalls (fanOutEvents codec userName svc names early running) =
      names.map (fun policy => ({ PolicyName := policy, UserName := userName } : GetUserPolicyInput)) := by
  induction names generalizing early running with
  | nil => simp [fanOutEvents, startedCalls_waitEvents]
  | cons policy rest ih =>
    have hp := hret policy (List.mem_cons_self policy rest)
    have hrest : ∀ q ∈ rest, (getUserInlinePolicy codec q userName svc).returns = true :=
      fun q hq => hret q (List.mem_cons_of_mem policy hq)
    cases early with
    | nil => simp [fanOutEvents, startedCalls, ih _ _ hrest]
    | cons b early' =>
      cases b with
      | false => simp [fanOutEvents, startedCalls, ih _ _ hrest]
      | true =>
        cases hg : getUserInlinePolicy codec policy userName svc with
        | panic => rw [hg] at hp; simp [GoResult.returns] at hp
        | error e => simp [fanOutEvents, goroutineEnd, hg, startedCalls, ih _ _ hrest]
        | ok v => simp [fanOutEvents, goroutineEnd, hg, startedCalls, ih _ _ hrest]

theorem finishOrder_waitEvents (codec : Codec) (userName : Option String) (svc : IAM)
    (running : List (Option String))
    (hret : ∀ p ∈ running, (getUserInlinePolicy codec p userName svc).returns = true) :
    finishOrder (waitEvents codec userName svc running) = running := by
  induction running with
  | nil => rfl
  | cons policy rest ih =>
    have hp := hret policy (List.mem_cons_self policy rest)
    have hrest : ∀ q ∈ rest, (getUserInlinePolicy codec q userName svc).returns = true :=
      fun q hq => hret q (List.mem_cons_of_mem policy hq)
    cases hg : getUserInlinePolicy codec policy userName svc with
    | panic => rw [hg] at hp; simp [GoResult.returns] at hp
    | error e => simp [waitEvents, goroutineEnd, hg, finishOrder, ih hrest]
    | ok v => simp [waitEvents, goroutineEnd, hg, finishOrder, ih hrest]

theorem finishOrder_fanOutEvents_perm (codec : Codec) (userName : Option String) (svc : IAM)
    (names : List (Option String)) (early : List Bool) (running : List (Option String))
    (hnames : ∀ p ∈ names, (getUserInlinePolicy codec p userName svc).returns = true)
    (hrunning : ∀ p ∈ running, (getUserInlinePolicy codec p userName svc).returns = true) :
    (finishOrder (fanOutEvents codec userName svc names early running)).Perm
      (running ++ names) := by
  induction names generalizing early running with
  | nil =>
    simp only [fanOutEvents, List.append_nil]
    rw [finishOrder_waitEvents codec userName svc running hrunning]
  | cons policy rest ih =>
    have hp := hnames policy (List.mem_cons_self policy rest)
    have hrest : ∀ q ∈ rest, (getUserInlinePolicy codec q userName svc).returns = true :=
      fun q hq => hnames q (List.mem_cons_of_mem policy hq)
    have hlate : ∀ q ∈ running ++ [policy],
        (getUserInlinePolicy codec q userName svc).returns = true := by
      intro q hq
      rcases List.mem_append.1 hq with h | h
      · exact hrunning q h
      · rw [List.mem_singleton.1 h]; exact hp
    have hlater : ∀ e, (finishOrder (fanOutEvents codec userName svc rest e
        (running ++ [policy]))).Perm (running ++ policy :: rest) := by
      intro e
      have := ih e (running ++ [policy]) hrest hlate
      simpa [List.append_assoc] using this
    cases early with
    | nil => simpa [fanOutEvents, finishOrder] using hlater []
    | cons b early' =>
      cases b with
      | false => simpa [fanOutEvents, finishOrder] using hlater early'
      | true =>
        have hnow : (policy :: finishOrder (fanOutEvents codec userName svc rest early'
            running)).Perm (running ++ policy :: rest) :=
          ((ih early' running hrest hrunning).cons policy).trans List.perm_middle.symm
        cases hg : getUserInlinePolicy codec policy userName svc with
        | panic => rw [hg] at hp; simp [GoResult.returns] at hp
        | error e => simpa [fanOutEvents, goroutineEnd, hg, finishOrder] using hnow
        | ok v => simpa [fanOutEvents, goroutineEnd, hg, finishOrder] using hnow

/-! ## Lemmas on the declared dependencies -/

theorem dependsOn_tableAwsIamUser (hp : Helpers) (f g : HydrateFunc) :
    dependsOn (tableAwsIamUser hp) f g = true ↔
      f = .getAwsIamUserInlinePolicies ∧ g = .listAwsIamUserInlinePolicies := by
  simp only [dependsOn, tableAwsIamUser, List.any_cons, List.any_nil, Bool.or_false,
    Bool.and_eq_true, decide_eq_true_eq, List.contains_cons, List.contains_nil,
    Bool.or_eq_true, beq_iff_eq]
  constructor
  · rintro ⟨h1, h2⟩
    subst h1
    subst h2
    exact ⟨rfl, rfl⟩
  · rintro ⟨h1, h2⟩
    subst h1
    subst h2
    exact ⟨rfl, rfl⟩

theorem transGen_dependsOn_tableAwsIamUser (hp : Helpers) (f g : HydrateFunc)
    (h : Relation.TransGen (fun a b => dependsOn (tableAwsIamUser hp) a b = true) f g) :
    f = .getAwsIamUserInlinePolicies ∧ g = .listAwsIamUserInlinePolicies := by
  induction h with
  | single hstep => exact (dependsOn_tableAwsIamUser hp _ _).1 hstep
  | tail _ hstep ih =>
    have := (dependsOn_tableAwsIamUser hp _ _).1 hstep
    rw [ih.2] at this
    exact absurd this.1 (by decide)

/-! ## Lemmas on Go maps and the tag loop -/

theorem mapGet_mapSet_same {β : Type} (m : List (String × β)) (k : String) (v : β) :
    mapGet (mapSet m k v) k = some v := by
  induction m with
  | nil => simp [mapSet, mapGet]
  | cons e rest ih =>
    obtain ⟨k0, v0⟩ := e
    by_cases hk : k0 = k
    · simp [mapSet, mapGet, hk]
    · simp [mapSet, mapGet, hk, ih]

theorem mapGet_mapSet_ne {β : Type} (m : List (String × β)) (k k' : String) (v : β)
    (hne : k ≠ k') : mapGet (mapSet m k v) k' = mapGet m k' := by
  induction m with
  | nil => simp [mapSet, mapGet, hne]
  | cons e rest ih =>
    obtain ⟨k0, v0⟩ := e
    by_cases hk : k0 = k
    · subst hk
      simp [mapSet, mapGet, hne]
    · by_cases hk' : k0 = k'
      · subst hk'
        simp [mapSet, mapGet, hk]
      · simp [mapSet, mapGet, hk, hk', ih]

theorem mem_mapKeys_mapSet {β : Type} (m : List (String × β)) (k k' : String) (v : β) :
    k' ∈ mapKeys (mapSet m k v) ↔ k' = k ∨ k' ∈ mapKeys m := by
  induction m with
  | nil => simp [mapSet, mapKeys]
  | cons e rest ih =>
    obtain ⟨k0, v0⟩ := e
    by_cases hk : k0 = k
    · subst hk
      simp [mapSet, mapKeys]
    · have ih' : k' ∈ List.map Prod.fst (mapSet rest k v) ↔
          k' = k ∨ k' ∈ List.map Prod.fst rest := ih
      simp only [mapSet, hk, if_false, mapKeys, List.map_cons, List.mem_cons, ih']
      tauto

theorem nodup_mapKeys_mapSet {β : Type} (m : List (String × β)) (k : String) (v : β)
    (hm : (mapKeys m).Nodup) : (mapKeys (mapSet m k v)).Nodup := by
  induction m with
  | nil => simp [mapSet, mapKeys]
  | cons e rest ih =>
    obtain ⟨k0, v0⟩ := e
    have hm' : k0 ∉ mapKeys rest ∧ (mapKeys rest).Nodup := by
      simpa [mapKeys] using hm
    by_cases hk : k0 = k
    · subst hk
      simpa [mapSet, mapKeys] using hm
    · have hnot : k0 ∉ mapKeys (mapSet rest k v) := by
        rw [mem_mapKeys_mapSet]
        rintro (h | h)
        · exact hk h
        · exact hm'.1 h
      have hrec := ih hm'.2
      have hgoal : (k0 :: mapKeys (mapSet rest k v)).Nodup := List.nodup_cons.2 ⟨hnot, hrec⟩
      simpa [mapSet, hk, mapKeys] using hgoal

theorem ssmTagsLoop_spec (tags : List SsmTag) (m : List (String × String))
    (hall : ∀ t ∈ tags, t.Key.isSome = true ∧ t.Value.isSome = true)
    (hm : (mapKeys m).Nodup) :
    ∃ r, ssmTagsLoop tags m = some r ∧ (mapKeys r).Nodup ∧
      (∀ k, k ∈ mapKeys r ↔ k ∈ mapKeys m ∨ ∃ t ∈ tags, t.Key = some k) ∧
      (∀ k, mapGet r k =
        match (tags.filter (fun t => decide (t.Key = some k))).getLast? with
        | some t => t.Value
        | none => mapGet m k) := by
  induction tags generalizing m with
  | nil => exact ⟨m, rfl, hm, by simp, by simp⟩
  | cons t rest ih =>
    have ht := hall t (List.mem_cons_self t rest)
    have hrest : ∀ t' ∈ rest, t'.Key.isSome = true ∧ t'.Value.isSome = true :=
      fun t' ht' => hall t' (List.mem_cons_of_mem t ht')
    obtain ⟨k0, hk0⟩ := Option.isSome_iff_exists.1 ht.1
    obtain ⟨v0, hv0⟩ := Option.isSome_iff_exists.1 ht.2
    obtain ⟨r, hr, hnodup, hkeys, hget⟩ :=
      ih (mapSet m k0 v0) hrest (nodup_mapKeys_mapSet m k0 v0 hm)
    refine ⟨r, ?_, hnodup, ?_, ?_⟩
    · simp [ssmTagsLoop, hk0, hv0, hr]
    · intro k
      rw [hkeys k, mem_mapKeys_mapSet]
      constructor
      · rintro ((h | h) | ⟨t', ht', hkey⟩)
        · exact Or.inr ⟨t, List.mem_cons_self t rest, by rw [hk0, h]⟩
        · exact Or.inl h
        · exact Or.inr ⟨t', List.mem_cons_of_mem t ht', hkey⟩
      · rintro (h | ⟨t', ht', hkey⟩)
        · exact Or.inl (Or.inr h)
        · rcases List.mem_cons.1 ht' with heq | hmem
          · subst heq
            rw [hk0] at hkey
            exact Or.inl (Or.inl (Option.some.inj hkey).symm)
          · exact Or.inr ⟨t', hmem, hkey⟩
    · intro k
      rw [hget k]
      by_cases hk : k0 = k
      · subst hk
        have hfilter : (t :: rest).filter (fun t => decide (t.Key = some k0)) =
            t :: rest.filter (fun t => decide (t.Key = some k0)) := by
          simp [List.filter_cons, hk0]
        rw [hfilter, List.getLast?_cons, mapGet_mapSet_same]
        cases (rest.filter (fun t => decide (t.Key = some k0))).getLast? with
        | none => simp [hv0]
        | some t' => simp
      · have hfilter : (t :: rest).filter (fun t => decide (t.Key = some k)) =
            rest.filter (fun t => decide (t.Key = some k)) := by
          simp [List.filter_cons, hk0, hk]
        rw [hfilter, mapGet_mapSet_ne m k0 k v0 hk]

/-! ## Theorems -/

/-- C1: in `getAwsIamUserInlinePolicies`, when the session is there, the sub-calls
all return and at least one of them fails (in the API call or in the URL or JSON
decoding), the hydrator returns an error, which is the failure of one of the
sub-calls, and no policy list; this for every completion order of the goroutines. -/
theorem getAwsIamUserInlinePolicies_fails_when_subcall_fails
    (codec : Codec) (d : QueryData) (h : HydrateData) (svc : IAM)
    (out : ListUserPoliciesOutput) (completion : List (Option String))
    (hres : mapGet h.HydrateResults "listAwsIamUserInlinePolicies" =
      some (.listUserPoliciesOutput (some out)))
    (hsvc : d.IAMService = .ok svc)
    (hperm : completion.Perm out.PolicyNames)
    (hret : ∀ p ∈ out.PolicyNames,
      (getUserInlinePolicy codec p h.Item.UserName svc).returns = true)
    (hfail : ∃ p ∈ out.PolicyNames,
      (getUserInlinePolicy codec p h.Item.UserName svc).isError = true) :
    ∃ p ∈ out.PolicyNames, ∃ err,
      getUserInlinePolicy codec p h.Item.UserName svc = .error err ∧
      (getAwsIamUserInlinePolicies codec d h completion).result = .error err := by
  have hret' : ∀ p ∈ completion,
      (getUserInlinePolicy codec p h.Item.UserName svc).returns = true :=
    fun p hp => hret p (hperm.subset hp)
  have hrun := runGoroutines_channels codec h.Item.UserName svc completion ⟨[], []⟩ hret'
  simp only [List.nil_append] at hrun
  obtain ⟨q, hq, hqe⟩ := hfail
  have hqc : q ∈ completion := hperm.symm.subset hq
  obtain ⟨e, he⟩ : ∃ e, getUserInlinePolicy codec q h.Item.UserName svc = .error e := by
    cases hg : getUserInlinePolicy codec q h.Item.UserName svc with
    | error e => exact ⟨e, rfl⟩
    | panic => rw [hg] at hqe; simp [GoResult.isError] at hqe
    | ok v => rw [hg] at hqe; simp [GoResult.isError] at hqe
  have hmem : e ∈ completion.filterMap
      (fun p => errorOf (getUserInlinePolicy codec p h.Item.UserName svc)) := by
    rw [List.mem_filterMap]
    exact ⟨q, hqc, by rw [he]; rfl⟩
  cases herrs : completion.filterMap
      (fun p => errorOf (getUserInlinePolicy codec p h.Item.UserName svc)) with
  | nil => rw [herrs] at hmem; simp at hmem
  | cons err rest =>
    have herr : err ∈ completion.filterMap
        (fun p => errorOf (getUserInlinePolicy codec p h.Item.UserName svc)) := by
      rw [herrs]; exact List.mem_cons_self err rest
    obtain ⟨p, hp, hpe⟩ := filterMap_errorOf_mem
      (fun p => getUserInlinePolicy codec p h.Item.UserName svc) completion err herr
    refine ⟨p, hperm.subset hp, err, hpe, ?_⟩
    rw [herrs] at hrun
    simp [getAwsIamUserInlinePolicies, hres, hsvc, hrun]

/-- Witness of C1: the policies `a` and `denied`, completing in the order
`denied`, `a`. -/
theorem getAwsIamUserInlinePolicies_fails_when_subcall_fails_witness :
    ∃ p ∈ [some "a", some "denied"], ∃ err,
      getUserInlinePolicy exampleCodec p (some "alice") exampleIAM = .error err ∧
      (getAwsIamUserInlinePolicies exampleCodec exampleQuery
        (exampleHydrate [some "a", some "denied"]) [some "denied", some "a"]).result
        = .error err :=
  getAwsIamUserInlinePolicies_fails_when_subcall_fails exampleCodec exampleQuery
    (exampleHydrate [some "a", some "denied"]) exampleIAM
    { PolicyNames := [some "a", some "denied"] } [some "denied", some "a"]
    rfl rfl (List.Perm.swap (some "a") (some "denied") [])
    (by
      intro p hp
      simp only [List.mem_cons, List.mem_singleton, List.not_mem_nil, or_false] at hp
      rcases hp with rfl | rfl <;> rfl)
    ⟨some "denied", by simp, rfl⟩

/-- C2: in `getAwsIamUserInlinePolicies`, when the session is there and all N
sub-calls succeed, the hydrator returns no error and a list of N maps which is a
permutation of the per-policy results of `getUserInlinePolicy`, one per policy
name; this for every completion order of the goroutines. -/
theorem getAwsIamUserInlinePolicies_collects_all
    (codec : Codec) (d : QueryData) (h : HydrateData) (svc : IAM)
    (out : ListUserPoliciesOutput) (completion : List (Option String))
    (hres : mapGet h.HydrateResults "listAwsIamUserInlinePolicies" =
      some (.listUserPoliciesOutput (some out)))
    (hsvc : d.IAMService = .ok svc)
    (hperm : completion.Perm out.PolicyNames)
    (hok : ∀ p ∈ out.PolicyNames, ∃ v,
      getUserInlinePolicy codec p h.Item.UserName svc = .ok v) :
    ∃ userPolicies,
      (getAwsIamUserInlinePolicies codec d h completion).result = .ok userPolicies ∧
      userPolicies.length = out.PolicyNames.length ∧
      (userPolicies.map (fun m => GoResult.ok (some m))).Perm
        (out.PolicyNames.map (fun p => getUserInlinePolicy codec p h.Item.UserName svc)) := by
  have hok' : ∀ p ∈ completion, ∃ m,
      getUserInlinePolicy codec p h.Item.UserName svc = .ok (some m) := by
    intro p hp
    obtain ⟨v, hv⟩ := hok p (hperm.subset hp)
    obtain ⟨m, rfl⟩ := getUserInlinePolicy_ok_some codec p h.Item.UserName svc v hv
    exact ⟨m, hv⟩
  have hret : ∀ p ∈ completion,
      (getUserInlinePolicy codec p h.Item.UserName svc).returns = true := by
    intro p hp
    obtain ⟨m, hm⟩ := hok' p hp
    rw [hm]; rfl
  have hrun := runGoroutines_channels codec h.Item.UserName svc completion ⟨[], []⟩ hret
  obtain ⟨herrs, hpols⟩ := filterMap_all_ok
    (fun p => getUserInlinePolicy codec p h.Item.UserName svc) completion hok'
  simp only [List.nil_append] at hrun
  rw [herrs] at hrun
  refine ⟨completion.filterMap
    (fun p => policyOf (getUserInlinePolicy codec p h.Item.UserName svc)), ?_, ?_, ?_⟩
  · simp [getAwsIamUserInlinePolicies, hres, hsvc, hrun]
  · have hlen := congrArg List.length hpols
    simp only [List.length_map] at hlen
    rw [hlen, hperm.length_eq]
  · rw [hpols]
    exact hperm.map _

/-- Witness of C2: the policies `a` and `b`, completing in the order `b`, `a`. -/
theorem getAwsIamUserInlinePolicies_collects_all_witness :
    ∃ userPolicies,
      (getAwsIamUserInlinePolicies exampleCodec exampleQuery
        (exampleHydrate [some "a", some "b"]) [some "b", some "a"]).result = .ok userPolicies ∧
      userPolicies.length = 2 ∧
      (userPolicies.map (fun m => GoResult.ok (some m))).Perm
        ([some "a", some "b"].map
          (fun p => getUserInlinePolicy exampleCodec p (some "alice") exampleIAM)) :=
  getAwsIamUserInlinePolicies_collects_all exampleCodec exampleQuery
    (exampleHydrate [some "a", some "b"]) exampleIAM
    { PolicyNames := [some "a", some "b"] } [some "b", some "a"]
    rfl rfl (List.Perm.swap (some "a") (some "b") [])
    (by
      intro p hp
      simp only [List.mem_cons, List.mem_singleton, List.not_mem_nil, or_false] at hp
      rcases hp with rfl | rfl <;> exact ⟨_, rfl⟩)

/-- C3 (the code departs from the claim): with the session created and every API
request failing with `err`, none of the three hydrators returns `err`:
`getAwsIamUserData` panics on the nil `User` of the empty output,
`getAwsIamUserAttachedPolicies` returns an empty list without error and
`getAwsIamUserGroups` returns the empty output without error. -/
theorem hydrators_drop_the_api_error (err : GoError) (h : HydrateData) :
    (failingIAM err).GetUser { UserName := h.Item.UserName } = (some {}, some err) ∧
    (getAwsIamUserData (failingQuery err) h).result = .panic ∧
    (getAwsIamUserAttachedPolicies (failingQuery err) h).result = .ok [] ∧
    (getAwsIamUserGroups (failingQuery err) h).result = .ok (some {}) :=
  ⟨rfl, rfl, rfl, rfl⟩

/-- C4: with the session created, `listIamUsers` streams the concatenation of the
users of the pages, in page order, whatever the pages and their flags are, and
returns the error of the paging call, none when paging succeeds. -/
theorem listIamUsers_streams_every_page (d : QueryData) (svc : IAM)
    (hsvc : d.IAMService = .ok svc) :
    (listIamUsers d).items = (svc.ListUsersPages.1.map (fun pg => pg.1.Users)).flatten ∧
    (listIamUsers d).result =
      (match svc.ListUsersPages.2 with
       | some err => GoResult.error err
       | none => GoResult.ok ()) := by
  have hpages := eachPage_always_continue
    (fun (stream : List User) (page : ListUsersOutput) => page.Users.foldl StreamListItem stream)
    svc.ListUsersPages.1 []
  have hfold : svc.ListUsersPages.1.foldl
      (fun st pg => pg.1.Users.foldl StreamListItem st) []
      = (svc.ListUsersPages.1.map (fun pg => pg.1.Users)).flatten := by
    have := foldl_append_pages (fun (page : ListUsersOutput) => page.Users)
      svc.ListUsersPages.1 []
    simpa [foldl_StreamListItem] using this
  have hfn : listIamUsersPage = (fun (st : List User) (pg : ListUsersOutput) (_ : Bool) =>
      (pg.Users.foldl StreamListItem st, true)) := rfl
  simp only [listIamUsers, hsvc, callPages, hfn]
  rw [hpages, hfold]
  cases svc.ListUsersPages.2 <;> simp

/-- Witness of C4: three users on two pages. -/
theorem listIamUsers_streams_every_page_witness :
    (listIamUsers exampleQuery).items =
      [{ UserName := some "u1" }, { UserName := some "u2" }, { UserName := some "u3" }] ∧
    (listIamUsers exampleQuery).result = GoResult.ok () :=
  listIamUsers_streams_every_page exampleQuery exampleIAM rfl

/-- C5: with the region read and the session created, when every page but the
final one is flagged as not last, `listAwsSSMMaintenanceWindow` streams one item
per identity, in page order and in-page order, and the item of an identity has
its ten listed fields and every other field unset. -/
theorem listAwsSSMMaintenanceWindow_streams_every_identity
    (d : SsmQueryData) (region : String) (svc : SSM)
    (hregion : regionOfMatrix d.matrixRegion = some region)
    (hsvc : d.SsmService region = .ok svc)
    (hflags : ∀ pg ∈ svc.DescribeMaintenanceWindowsPages.1.dropLast, pg.2 = false) :
    (listAwsSSMMaintenanceWindow d).items =
      ((svc.DescribeMaintenanceWindowsPages.1.map
        (fun pg => pg.1.WindowIdentities)).flatten).map windowOfIdentity ∧
    ∀ parameter : MaintenanceWindowIdentity,
      (windowOfIdentity parameter).Name = parameter.Name ∧
      (windowOfIdentity parameter).Cutoff = parameter.Cutoff ∧
      (windowOfIdentity parameter).NextExecutionTime = parameter.NextExecutionTime ∧
      (windowOfIdentity parameter).Schedule = parameter.Schedule ∧
      (windowOfIdentity parameter).ScheduleOffset = parameter.ScheduleOffset ∧
      (windowOfIdentity parameter).ScheduleTimezone = parameter.ScheduleTimezone ∧
      (windowOfIdentity parameter).WindowId = parameter.WindowId ∧
      (windowOfIdentity parameter).Description = parameter.Description ∧
      (windowOfIdentity parameter).Enabled = parameter.Enabled ∧
      (windowOfIdentity parameter).Duration = parameter.Duration ∧
      (windowOfIdentity parameter).AllowUnassociatedTargets = none ∧
      (windowOfIdentity parameter).CreatedDate = none ∧
      (windowOfIdentity parameter).EndDate = none ∧
      (windowOfIdentity parameter).ModifiedDate = none ∧
      (windowOfIdentity parameter).StartDate = none := by
  refine ⟨?_, fun parameter => ⟨rfl, rfl, rfl, rfl, rfl, rfl, rfl, rfl, rfl, rfl, rfl, rfl, rfl, rfl, rfl⟩⟩
  have hpages := eachPage_until_last
    (fun (stream : List GetMaintenanceWindowOutput) (page : DescribeMaintenanceWindowsOutput) =>
      page.WindowIdentities.foldl
        (fun st parameter => StreamListItem st (windowOfIdentity parameter)) stream)
    svc.DescribeMaintenanceWindowsPages.1 [] hflags
  have hfold : svc.DescribeMaintenanceWindowsPages.1.foldl
      (fun st pg => pg.1.WindowIdentities.foldl
        (fun st parameter => StreamListItem st (windowOfIdentity parameter)) st) []
      = ((svc.DescribeMaintenanceWindowsPages.1.map
        (fun pg => pg.1.WindowIdentities)).flatten).map windowOfIdentity := by
    have := foldl_append_pages
      (fun (page : DescribeMaintenanceWindowsOutput) => page.WindowIdentities.map windowOfIdentity)
      svc.DescribeMaintenanceWindowsPages.1 []
    simp only [foldl_StreamListItem_map]
    rw [this]
    simp only [List.map_flatten, List.map_map, List.nil_append]
    rfl
  rw [hfold] at hpages
  simp only [listAwsSSMMaintenanceWindow, hregion, hsvc, callPages]
  rw [← hpages]
  split <;> rfl

/-- Witness of C5: three identities on two pages, the second page flagged as last. -/
theorem listAwsSSMMaintenanceWindow_streams_every_identity_witness :
    (listAwsSSMMaintenanceWindow exampleSsmQuery).items =
      [{ WindowId := some "mw-1", Name := some "first" },
       { WindowId := some "mw-2", Enabled := some true },
       { WindowId := some "mw-3", Duration := some 4 }] :=
  (listAwsSSMMaintenanceWindow_streams_every_identity exampleSsmQuery "us-east-1" exampleSSM
    rfl rfl (by decide)).1

/-- C6: with the session created and the key column `name` equal to `n`, the get
of `aws_iam_user` (`userFromKey`, then `getIamUser` on its item) issues exactly one
request, a `GetUser` whose `UserName` is `n`; when that call succeeds with the
output `op` the get returns `op.User` without error, and when it fails the get
returns that error and no item. -/
theorem getAwsIamUserByKey_gets_the_named_user (d : QueryData) (svc : IAM) (n : String)
    (hkey : mapGet d.KeyColumnQuals "name" = some (.stringValue n))
    (hsvc : d.IAMService = .ok svc) :
    (getAwsIamUserByKey d).calls = [ApiCall.GetUser { UserName := some n }] ∧
    (∀ op, svc.GetUser { UserName := some n } = (some op, none) →
      (getAwsIamUserByKey d).result = .ok op.User) ∧
    (∀ out err, svc.GetUser { UserName := some n } = (out, some err) →
      (getAwsIamUserByKey d).result = .error err) := by
  refine ⟨?_, ?_, ?_⟩
  · rcases hcall : svc.GetUser { UserName := some n } with ⟨out, err⟩
    cases err <;> cases out <;>
      simp [getAwsIamUserByKey, userFromKey, getIamUser, hkey, hsvc, GetStringValue, hcall]
  · intro op hcall
    simp [getAwsIamUserByKey, userFromKey, getIamUser, hkey, hsvc, GetStringValue, hcall]
  · intro out err hcall
    simp [getAwsIamUserByKey, userFromKey, getIamUser, hkey, hsvc, GetStringValue, hcall]

/-- Witness of C6: the get of the user `alice`. -/
theorem getAwsIamUserByKey_gets_the_named_user_witness :
    (getAwsIamUserByKey exampleQuery).calls = [ApiCall.GetUser { UserName := some "alice" }] ∧
    (getAwsIamUserByKey exampleQuery).result = .ok (some { UserName := some "alice" }) :=
  have h := getAwsIamUserByKey_gets_the_named_user exampleQuery exampleIAM "alice" rfl rfl
  ⟨h.1, h.2.1 { User := some { UserName := some "alice" } } rfl⟩

/-- C7: a get whose call fails with error `err` gives the empty result when the
code of `err` is in the configured set and surfaces `err` otherwise; the set is
`DoesNotExistException` alone for `aws_ssm_maintenance_window`, and for
`aws_iam_user`, which sets no rule of its own, it is the plugin default,
`ResourceNotFoundException` and `NoSuchEntity`. -/
theorem get_not_found_codes (hp : Helpers) (α : Type) (err : GoError) :
    hostGet (Plugin hp) (tableAwsSSMMaintenanceWindow hp) (GoResult.error err : GoResult α) =
      (if err.code? = some "DoesNotExistException" then .ok none else .error err) ∧
    (tableAwsIamUser hp).Get.bind (fun g => g.ShouldIgnoreError) = none ∧
    hostGet (Plugin hp) (tableAwsIamUser hp) (GoResult.error err : GoResult α) =
      (if err.code? = some "ResourceNotFoundException" ∨ err.code? = some "NoSuchEntity"
       then .ok none else .error err) := by
  refine ⟨?_, rfl, ?_⟩
  · cases err with
    | awsErr c m =>
      simp [hostGet, shouldIgnoreError, Plugin, tableAwsSSMMaintenanceWindow,
        ErrorPredicate.holds, isNotFoundError, GoError.code?]
    | other m =>
      simp [hostGet, shouldIgnoreError, Plugin, tableAwsSSMMaintenanceWindow,
        ErrorPredicate.holds, isNotFoundError, GoError.code?]
  · cases err with
    | awsErr c m =>
      simp [hostGet, shouldIgnoreError, Plugin, tableAwsIamUser,
        ErrorPredicate.holds, isNotFoundError, GoError.code?]
    | other m =>
      simp [hostGet, shouldIgnoreError, Plugin, tableAwsIamUser,
        ErrorPredicate.holds, isNotFoundError, GoError.code?]

/-- C8 (counterexample): `GetUserPolicy` succeeds with the document `null` and no
policy name; the document is valid URL-encoding and valid JSON, and
`getUserInlinePolicy` returns neither an error nor a map: it panics on the nil
`PolicyName` of line 383. -/
theorem getUserInlinePolicy_nil_name_counterexample :
    namelessIAM.GetUserPolicy { PolicyName := some "a", UserName := some "alice" } =
      (some { PolicyDocument := some "null", PolicyName := none }, none) ∧
    exampleCodec.QueryUnescape "null" = .ok "null" ∧
    exampleCodec.Unmarshal "null" = .ok .null ∧
    (getUserInlinePolicy exampleCodec (some "a") (some "alice") namelessIAM).isError = false ∧
    getUserInlinePolicy exampleCodec (some "a") (some "alice") namelessIAM = .panic :=
  ⟨rfl, rfl, rfl, rfl, rfl⟩

/-- C8 (amended): when `GetUserPolicy` succeeds with a policy document,
`getUserInlinePolicy` returns an error (and so no map) exactly when
`url.QueryUnescape` rejects the document or `json.Unmarshal` rejects the decoded
text; otherwise, when the output also carries a policy name, it returns without
error the map of exactly the two keys `PolicyDocument` (the parsed JSON value) and
`PolicyName` (that name). -/
theorem getUserInlinePolicy_decoding (codec : Codec) (policyName userName : Option String)
    (svc : IAM) (out : GetUserPolicyOutput) (document : String)
    (hcall : svc.GetUserPolicy { PolicyName := policyName, UserName := userName }
      = (some out, none))
    (hdoc : out.PolicyDocument = some document) :
    ((getUserInlinePolicy codec policyName userName svc).isError = true ↔
      ((∃ e, codec.QueryUnescape document = .error e) ∨
       (∃ decoded e, codec.QueryUnescape document = .ok decoded ∧
          codec.Unmarshal decoded = .error e))) ∧
    (∀ decoded rawPolicy name,
      codec.QueryUnescape document = .ok decoded →
      codec.Unmarshal decoded = .ok rawPolicy →
      out.PolicyName = some name →
      getUserInlinePolicy codec policyName userName svc =
        .ok (some [("PolicyDocument", .json rawPolicy), ("PolicyName", .str name)]) ∧
      mapKeys [("PolicyDocument", Value.json rawPolicy), ("PolicyName", Value.str name)]
        = ["PolicyDocument", "PolicyName"]) := by
  constructor
  · cases hdec : codec.QueryUnescape document with
    | error e => simp [getUserInlinePolicy, hcall, hdoc, hdec, GoResult.isError]
    | ok decoded =>
      cases hjson : codec.Unmarshal decoded with
      | error e => simp [getUserInlinePolicy, hcall, hdoc, hdec, hjson, GoResult.isError]
      | ok rawPolicy =>
        cases hname : out.PolicyName <;>
          simp [getUserInlinePolicy, hcall, hdoc, hdec, hjson, hname, GoResult.isError]
  · intro decoded rawPolicy name hdec hjson hname
    simp [getUserInlinePolicy, hcall, hdoc, hdec, hjson, hname, mapKeys]

/-- Witness of C8: the policy `a` of `alice`, whose document is `null`. -/
theorem getUserInlinePolicy_decoding_witness :
    getUserInlinePolicy exampleCodec (some "a") (some "alice") exampleIAM =
      .ok (some [("PolicyDocument", .json .null), ("PolicyName", .str "a")]) :=
  ((getUserInlinePolicy_decoding exampleCodec (some "a") (some "alice") exampleIAM
    { PolicyDocument := some "null", PolicyName := some "a" } "null" rfl rfl).2
      "null" .null "a" rfl rfl rfl).1

/-- C9 (the code departs from the claim): the columns of `aws_iam_user` hydrated by
`getAwsIamUserData` without a transform read the fields `PermissionsBoundaryArn`,
`PermissionsBoundaryType`, `TagsSrc` and `Tags`, while every map
`getAwsIamUserData` returns has the keys `TagsRaw`, `Tags`,
`PermissionsBoundaryArn` and `PermissionsBoundaryType`: `TagsSrc` is not a key,
as on the example user, where the lookup of `TagsSrc` finds nothing. -/
theorem tags_src_field_missing_from_user_data (hp : Helpers) (d : QueryData)
    (h : HydrateData) :
    ((iamUserColumns hp).filter
        (fun c => decide (c.Hydrate = some .getAwsIamUserData ∧ c.Transform = none))).map
        (fun c => (c.Name, defaultField (Plugin hp) c))
      = [("permissions_boundary_arn", some "PermissionsBoundaryArn"),
         ("permissions_boundary_type", some "PermissionsBoundaryType"),
         ("tags_src", some "TagsSrc"),
         ("tags", some "Tags")] ∧
    (match (getAwsIamUserData d h).result with
     | .ok m => mapKeys m =
         ["TagsRaw", "Tags", "PermissionsBoundaryArn", "PermissionsBoundaryType"]
     | _ => True) ∧
    (∃ m, (getAwsIamUserData exampleQuery (exampleHydrate [])).result = .ok m ∧
      (mapGet m "TagsSrc").isNone = true ∧ (mapGet m "TagsRaw").isSome = true) := by
  refine ⟨rfl, ?_, ⟨_, rfl, rfl, rfl⟩⟩
  cases hr : (getAwsIamUserData d h).result with
  | ok m => exact getAwsIamUserData_keys d h m hr
  | error e => trivial
  | panic => trivial

/-- C10 (the code departs from the claim): the registry built by `Plugin` maps the
name of the `aws_iam_user` descriptor to that descriptor, and has no entry under
`aws_ssm_maintenance_window`, the name of the descriptor built by
`tableAwsSSMMaintenanceWindow`. -/
theorem maintenance_window_table_not_registered (hp : Helpers) :
    (tableAwsIamUser hp).Name = "aws_iam_user" ∧
    mapGet (Plugin hp).TableMap (tableAwsIamUser hp).Name = some (tableAwsIamUser hp) ∧
    (tableAwsSSMMaintenanceWindow hp).Name = "aws_ssm_maintenance_window" ∧
    mapGet (Plugin hp).TableMap (tableAwsSSMMaintenanceWindow hp).Name = none ∧
    (mapKeys (Plugin hp).TableMap).contains (tableAwsSSMMaintenanceWindow hp).Name = false ∧
    (mapKeys (Plugin hp).TableMap).length = 76 :=
  ⟨rfl, rfl, rfl, rfl, rfl, rfl⟩

/-- C11 (counterexample): with a row limit of 1, the callback of `listIamUsers` has
streamed two users after the first page and still answers `true`, and
`listIamUsers` goes on to stream the user of the second page. -/
theorem listIamUsers_ignores_row_limit_counterexample :
    1 ≤ (listIamUsersPage []
      { Users := [{ UserName := some "u1" }, { UserName := some "u2" }] } false).1.length ∧
    (listIamUsersPage []
      { Users := [{ UserName := some "u1" }, { UserName := some "u2" }] } false).2 = true ∧
    (listIamUsers exampleQuery).items =
      [{ UserName := some "u1" }, { UserName := some "u2" }, { UserName := some "u3" }] :=
  ⟨by decide, rfl, by decide⟩

/-- C11 (amended): `listIamUsers` reads no row limit: its page callback answers
`true` for every page, whatever has been streamed before, so the iteration hands
over every page of the sequence. -/
theorem listIamUsers_callback_always_continues (stream : List User) (page : ListUsersOutput)
    (lastPage : Bool) (pages : List (ListUsersOutput × Bool)) :
    (listIamUsersPage stream page lastPage).2 = true ∧
    (eachPage listIamUsersPage pages stream).2 = true := by
  refine ⟨rfl, ?_⟩
  have h := eachPage_always_continue
    (fun (st : List User) (pg : ListUsersOutput) => pg.Users.foldl StreamListItem st) pages stream
  have hfn : listIamUsersPage = (fun (st : List User) (pg : ListUsersOutput) (_ : Bool) =>
      (pg.Users.foldl StreamListItem st, true)) := rfl
  rw [hfn, h]

/-- C12 (counterexample): for the policy names `denied` and `a`, in the schedule
where each goroutine ends before the next `go` statement, the sub-call of `a` is
started after the sub-call of `denied` has failed. -/
theorem fan_out_starts_after_failure_counterexample :
    fanOutEvents exampleCodec (some "alice") exampleIAM [some "denied", some "a"]
        [true, true] [] =
      [.started { PolicyName := some "denied", UserName := some "alice" },
       .finished { PolicyName := some "denied", UserName := some "alice" } true,
       .started { PolicyName := some "a", UserName := some "alice" },
       .finished { PolicyName := some "a", UserName := some "alice" } false] := by
  decide

/-- C12 (amended): in `getAwsIamUserInlinePolicies`, with the session created and
every sub-call returning, in every schedule: exactly one `GetUserPolicy` sub-call
is started per policy name, in list order, whether or not a sub-call started
before has already failed; every sub-call started runs to its end; and the error
channel the hydrator then reads holds the failure of every failed sub-call, the
result being its first error, or the collected maps when it is empty. -/
theorem fan_out_starts_one_subcall_per_name
    (codec : Codec) (d : QueryData) (h : HydrateData) (svc : IAM)
    (out : ListUserPoliciesOutput) (early : List Bool)
    (hres : mapGet h.HydrateResults "listAwsIamUserInlinePolicies" =
      some (.listUserPoliciesOutput (some out)))
    (hsvc : d.IAMService = .ok svc)
    (hret : ∀ p ∈ out.PolicyNames,
      (getUserInlinePolicy codec p h.Item.UserName svc).returns = true) :
    startedCalls (fanOutEvents codec h.Item.UserName svc out.PolicyNames early []) =
      out.PolicyNames.map (fun policy =>
        ({ PolicyName := policy, UserName := h.Item.UserName } : GetUserPolicyInput)) ∧
    (fanOutCompletion codec h.Item.UserName svc out.PolicyNames early).Perm out.PolicyNames ∧
    ∃ ch,
      runGoroutines codec h.Item.UserName svc
        (fanOutCompletion codec h.Item.UserName svc out.PolicyNames early) ⟨[], []⟩ = some ch ∧
      (∀ p ∈ out.PolicyNames, ∀ err,
        getUserInlinePolicy codec p h.Item.UserName svc = .error err → err ∈ ch.errorCh) ∧
      (getAwsIamUserInlinePolicies codec d h
        (fanOutCompletion codec h.Item.UserName svc out.PolicyNames early)).calls =
        (startedCalls (fanOutEvents codec h.Item.UserName svc out.PolicyNames early [])).map
          ApiCall.GetUserPolicy ∧
      (getAwsIamUserInlinePolicies codec d h
        (fanOutCompletion codec h.Item.UserName svc out.PolicyNames early)).result =
        (match ch.errorCh with
         | err :: _ => GoResult.error err
         | [] => GoResult.ok ch.policyCh) := by
  have hstarted := startedCalls_fanOutEvents codec h.Item.UserName svc out.PolicyNames early []
    hret
  have hperm : (fanOutCompletion codec h.Item.UserName svc out.PolicyNames early).Perm
      out.PolicyNames := by
    have := finishOrder_fanOutEvents_perm codec h.Item.UserName svc out.PolicyNames early []
      hret (by simp)
    simpa [fanOutCompletion] using this
  have hret' : ∀ p ∈ fanOutCompletion codec h.Item.UserName svc out.PolicyNames early,
      (getUserInlinePolicy codec p h.Item.UserName svc).returns = true :=
    fun p hp => hret p (hperm.subset hp)
  have hrun := runGoroutines_channels codec h.Item.UserName svc
    (fanOutCompletion codec h.Item.UserName svc out.PolicyNames early) ⟨[], []⟩ hret'
  simp only [List.nil_append] at hrun
  refine ⟨hstarted, hperm, _, hrun, ?_, ?_, ?_⟩
  · intro p hp err herr
    rw [List.mem_filterMap]
    exact ⟨p, hperm.symm.subset hp, by rw [herr]; rfl⟩
  · rw [hstarted]
    simp only [getAwsIamUserInlinePolicies, hres, hsvc, hrun, List.map_map]
    split <;> rfl
  · simp only [getAwsIamUserInlinePolicies, hres, hsvc, hrun]
    split <;> simp_all

/-- Witness of C12: the policies `denied` and `a`, each goroutine ending before
the next one is started; the hydrator returns the error of `denied`. -/
theorem fan_out_starts_one_subcall_per_name_witness :
    startedCalls (fanOutEvents exampleCodec (some "alice") exampleIAM
      [some "denied", some "a"] [true, true] []) =
      [{ PolicyName := some "denied", UserName := some "alice" },
       { PolicyName := some "a", UserName := some "alice" }] ∧
    (fanOutCompletion exampleCodec (some "alice") exampleIAM
      [some "denied", some "a"] [true, true]).Perm [some "denied", some "a"] ∧
    ∃ ch,
      runGoroutines exampleCodec (some "alice") exampleIAM
        (fanOutCompletion exampleCodec (some "alice") exampleIAM
          [some "denied", some "a"] [true, true]) ⟨[], []⟩ = some ch ∧
      (∀ p ∈ [some "denied", some "a"], ∀ err,
        getUserInlinePolicy exampleCodec p (some "alice") exampleIAM = .error err →
          err ∈ ch.errorCh) ∧
      (getAwsIamUserInlinePolicies exampleCodec exampleQuery
        (exampleHydrate [some "denied", some "a"])
        (fanOutCompletion exampleCodec (some "alice") exampleIAM
          [some "denied", some "a"] [true, true])).calls =
        (startedCalls (fanOutEvents exampleCodec (some "alice") exampleIAM
          [some "denied", some "a"] [true, true] [])).map ApiCall.GetUserPolicy ∧
      (getAwsIamUserInlinePolicies exampleCodec exampleQuery
        (exampleHydrate [some "denied", some "a"])
        (fanOutCompletion exampleCodec (some "alice") exampleIAM
          [some "denied", some "a"] [true, true])).result =
        (match ch.errorCh with
         | err :: _ => GoResult.error err
         | [] => GoResult.ok ch.policyCh) :=
  fan_out_starts_one_subcall_per_name exampleCodec exampleQuery
    (exampleHydrate [some "denied", some "a"]) exampleIAM
    { PolicyNames := [some "denied", some "a"] } [true, true]
    rfl rfl
    (by
      intro p hp
      simp only [List.mem_cons, List.mem_singleton, List.not_mem_nil, or_false] at hp
      rcases hp with rfl | rfl <;> rfl)

/-- C13: in the `aws_iam_user` table, `getAwsIamUserInlinePolicies` reads from the
hydrate results only the entry keyed `listAwsIamUserInlinePolicies`, the key of
the hydrator it declares in `Depends`; the other hydrators of the table read none
of the hydrate results; and the declared dependency relation has no cycle. -/
theorem iam_user_dependencies_declared_and_acyclic (hp : Helpers) (codec : Codec)
    (d : QueryData) (item : User) (results : List (String × HydrateValue))
    (completion : List (Option String)) :
    getAwsIamUserInlinePolicies codec d { Item := item, HydrateResults := results } completion =
      getAwsIamUserInlinePolicies codec d
        { Item := item
          HydrateResults := onlyKey results HydrateFunc.listAwsIamUserInlinePolicies.key }
        completion ∧
    HydrateFunc.listAwsIamUserInlinePolicies.key = "listAwsIamUserInlinePolicies" ∧
    dependsOn (tableAwsIamUser hp) .getAwsIamUserInlinePolicies
      .listAwsIamUserInlinePolicies = true ∧
    getIamUser d { Item := item, HydrateResults := results } = getIamUser d { Item := item } ∧
    getAwsIamUserData d { Item := item, HydrateResults := results } =
      getAwsIamUserData d { Item := item } ∧
    getAwsIamUserAttachedPolicies d { Item := item, HydrateResults := results } =
      getAwsIamUserAttachedPolicies d { Item := item } ∧
    getAwsIamUserGroups d { Item := item, HydrateResults := results } =
      getAwsIamUserGroups d { Item := item } ∧
    listAwsIamUserInlinePolicies d { Item := item, HydrateResults := results } =
      listAwsIamUserInlinePolicies d { Item := item } ∧
    (∀ f g, dependsOn (tableAwsIamUser hp) f g = true →
      f = .getAwsIamUserInlinePolicies ∧ g = .listAwsIamUserInlinePolicies) ∧
    ∀ f, ¬ Relation.TransGen (fun a b => dependsOn (tableAwsIamUser hp) a b = true) f f := by
  refine ⟨?_, rfl, rfl, rfl, rfl, rfl, rfl, rfl,
    fun f g => (dependsOn_tableAwsIamUser hp f g).1, ?_⟩
  · have hk : mapGet (onlyKey results "listAwsIamUserInlinePolicies")
        "listAwsIamUserInlinePolicies" = mapGet results "listAwsIamUserInlinePolicies" := by
      cases hr : mapGet results "listAwsIamUserInlinePolicies" <;> simp [onlyKey, hr, mapGet]
    simp only [getAwsIamUserInlinePolicies, HydrateFunc.key, hk]
  · intro f hcycle
    have := transGen_dependsOn_tableAwsIamUser hp f f hcycle
    rw [this.1] at this
    exact absurd this.2 (by decide)

/-- C14: on a tag list whose tags all have a key and a value,
`ssmMaintenanceWindowTagListToTurbotTags` returns no error; a nil list gives a nil
map; a non-nil list gives a map whose keys are exactly the keys of the tags and
where each key has the value of the last tag of the list with that key, so the
empty list gives the empty map. -/
theorem ssmMaintenanceWindowTagListToTurbotTags_last_value_wins (tags : List SsmTag)
    (hall : ∀ t ∈ tags, t.Key.isSome = true ∧ t.Value.isSome = true) :
    ssmMaintenanceWindowTagListToTurbotTags { Value := .ssmTagList none } = .ok none ∧
    ssmMaintenanceWindowTagListToTurbotTags { Value := .ssmTagList (some []) } = .ok (some []) ∧
    ∃ turbotTagsMap,
      ssmMaintenanceWindowTagListToTurbotTags { Value := .ssmTagList (some tags) }
        = .ok (some turbotTagsMap) ∧
      (mapKeys turbotTagsMap).Nodup ∧
      (∀ k, k ∈ mapKeys turbotTagsMap ↔ ∃ t ∈ tags, t.Key = some k) ∧
      (∀ k, mapGet turbotTagsMap k =
        ((tags.filter (fun t => decide (t.Key = some k))).getLast?).bind (fun t => t.Value)) := by
  refine ⟨rfl, rfl, ?_⟩
  obtain ⟨r, hr, hnodup, hkeys, hget⟩ := ssmTagsLoop_spec tags [] hall (by simp [mapKeys])
  refine ⟨r, ?_, hnodup, ?_, ?_⟩
  · simp [ssmMaintenanceWindowTagListToTurbotTags, hr]
  · intro k
    rw [hkeys k]
    simp [mapKeys]
  · intro k
    rw [hget k]
    cases (tags.filter (fun t => decide (t.Key = some k))).getLast? with
    | none => simp [mapGet]
    | some t => simp

/-- Witness of C14: the tags `a=1`, `b=2`, `a=3` give the map `a=3`, `b=2`. -/
theorem ssmMaintenanceWindowTagListToTurbotTags_last_value_wins_witness :
    ∃ turbotTagsMap,
      ssmMaintenanceWindowTagListToTurbotTags
        { Value := .ssmTagList (some [⟨some "a", some "1"⟩, ⟨some "b", some "2"⟩,
            ⟨some "a", some "3"⟩]) } = .ok (some turbotTagsMap) ∧
      (mapKeys turbotTagsMap).Nodup ∧
      (∀ k, k ∈ mapKeys turbotTagsMap ↔
        ∃ t ∈ [(⟨some "a", some "1"⟩ : SsmTag), ⟨some "b", some "2"⟩, ⟨some "a", some "3"⟩],
          t.Key = some k) ∧
      (∀ k, mapGet turbotTagsMap k =
        (([(⟨some "a", some "1"⟩ : SsmTag), ⟨some "b", some "2"⟩, ⟨some "a", some "3"⟩].filter
          (fun t => decide (t.Key = some k))).getLast?).bind (fun t => t.Value)) :=
  (ssmMaintenanceWindowTagListToTurbotTags_last_value_wins
    [⟨some "a", some "1"⟩, ⟨some "b", some "2"⟩, ⟨some "a", some "3"⟩]
    (by decide)).2.2

/-- C15: for a maintenance window item with window id `w`, when `getCommonColumns`
gives the data `c`, `getAwsSSMMaintenanceWindowAkas` returns without error the
one-element list of the ARN built from the partition, region and account id of
`c` and from `w`; when `getCommonColumns` fails it returns that error and no list. -/
theorem getAwsSSMMaintenanceWindowAkas_arn
    (getCommonColumns : SsmQueryData → SsmHydrateData → GoResult (Option AwsCommonColumnData))
    (d : SsmQueryData) (item : GetMaintenanceWindowOutput) (w : String)
    (hw : item.WindowId = some w) :
    (∀ c, getCommonColumns d { Item := some item } = .ok (some c) →
      getAwsSSMMaintenanceWindowAkas getCommonColumns d { Item := some item } =
        .ok ["arn:" ++ c.Partition ++ ":ssm:" ++ c.Region ++ ":" ++ c.AccountId
          ++ ":maintenancewindow/" ++ w]) ∧
    (∀ err, getCommonColumns d { Item := some item } = .error err →
      getAwsSSMMaintenanceWindowAkas getCommonColumns d { Item := some item } = .error err) := by
  constructor
  · intro c hc
    have hlit : ":maintenancewindow" ++ "/" = ":maintenancewindow/" := by decide
    simp only [getAwsSSMMaintenanceWindowAkas, hc, hw]
    rw [String.append_assoc _ ":maintenancewindow" "/", hlit]
  · intro err herr
    simp only [getAwsSSMMaintenanceWindowAkas, herr]

/-- Witness of C15: the window `mw-1` in partition `aws`, region `us-east-1`,
account `123456789012`. -/
theorem getAwsSSMMaintenanceWindowAkas_arn_witness :
    getAwsSSMMaintenanceWindowAkas exampleCommonColumns exampleSsmQuery
      { Item := some { WindowId := some "mw-1" } } =
      .ok ["arn:" ++ "aws" ++ ":ssm:" ++ "us-east-1" ++ ":" ++ "123456789012"
        ++ ":maintenancewindow/" ++ "mw-1"] :=
  (getAwsSSMMaintenanceWindowAkas_arn exampleCommonColumns exampleSsmQuery
    { WindowId := some "mw-1" } "mw-1" rfl).1
    { Partition := "aws", Region := "us-east-1", AccountId := "123456789012" } rfl

end Aws
